import Mathlib

/-!
Verification of the sliding-block ("Klotski"-style) puzzle engine.

The development shallowly embeds the puzzle engine of the repository:
the discrete board model (`getPieceSize`, `checkGridCollision`), the move
generator (`getPossibleMoves`), the state serialization (`serializeState`),
the A* solver loop (`solvePuzzle`), and the continuous drag-validation layer
(`calculatePosition`, `isIntersect`, `checkCollisions`, `isPathClear`,
`handleDragMove`).

Embedding conventions:
* JavaScript numbers holding grid coordinates and pixel coordinates are
  embedded as `Int`.
* A JavaScript `Map` is embedded as an insertion-ordered association list
  `List (Nat × _)`; `Map.set` is `mapSet` (replace in place, else append),
  `Map.get` is `List.lookup`, and iteration follows list order, which is
  exactly the insertion order semantics of `Map`.
* A JavaScript `Set<string>` is embedded as a `List String` used only
  through membership, which is all the source uses.
* `Array.prototype.sort`, which is required to be a stable sort, is embedded
  as `List.insertionSort` (a stable sort) with the same comparator.
* The non-null assertions (`!`) of the source are embedded with explicit
  `Option` branches; the otherwise-throwing branches return a fixed value
  and are proved unreachable for this puzzle's ids (`piece_lookup_total`).
* The solver's `while` loop runs at most `maxStates` iterations because the
  guard compares the per-iteration counter `statesExplored` with `maxStates`;
  it is embedded with a fuel parameter instantiated at `maxStates`, so fuel
  runs out exactly when the guard `statesExplored < maxStates` turns false.
* The DOM-dependent computation of the drag target (pointer deltas, snapping
  and clamping against the board element) is outside the engine; the snapped
  candidate coordinates are taken as inputs of `handleDragMove`.
-/

/-- Piece type tag H (wide 1x2). -/
def H : Nat := 1

/-- Piece type tag V (tall 2x1). -/
def V : Nat := 2

/-- Piece type tag HV (2x2). -/
def HV : Nat := 3

/-- Pixel size of one square cell. -/
def SIZE : Int := 80

/-- Pixel border width. -/
def BORDER : Int := 2

/-- Pixel margin. -/
def MARGIN : Int := 2

/-- Pixel pitch of the grid: SIZE + BORDER * 2 + MARGIN = 86. -/
def GRID_SIZE : Int := SIZE + BORDER * 2 + MARGIN

/-- First valid pixel position: MARGIN + BORDER * 2 = 6. -/
def GRID_OFFSET : Int := MARGIN + BORDER * 2

/-- Pixel extent of a double cell: SIZE * 2 + BORDER * 2 + MARGIN = 166. -/
def RECTANGLE : Int := SIZE * 2 + BORDER * 2 + MARGIN

/-- A grid placement: the top-left cell of a piece, 1-indexed. -/
@[ext]
structure Pos where
  row : Int
  col : Int
deriving DecidableEq, Repr

/-- A solver move: one piece and its destination cell. -/
structure Move where
  pieceId : Nat
  toRow : Int
  toCol : Int
deriving DecidableEq, Repr

/-- The solver state: piece id to placement, insertion order preserved. -/
structure GameState where
  positions : List (Nat × Pos)
deriving DecidableEq, Repr

/-- Static configuration of one piece: id, starting cell, type tag, label. -/
structure PieceConfig where
  id : Nat
  row : Int
  col : Int
  type : Option Nat
  text : String
deriving DecidableEq, Repr

/-- A pixel rectangle: top-left corner plus extent. -/
structure PiecePosition where
  top : Int
  left : Int
  width : Int
  height : Int
deriving DecidableEq, Repr

/-- A pixel point (the top and left fields of a candidate position). -/
structure PixelPos where
  top : Int
  left : Int
deriving DecidableEq, Repr

/-- The fixed ten-piece puzzle definition. -/
def initialPieces : List PieceConfig :=
  [ { id := 1, row := 1, col := 1, type := some V, text := "🌿" },
    { id := 2, row := 1, col := 2, type := some HV, text := "🐼" },
    { id := 3, row := 1, col := 4, type := some V, text := "🌿" },
    { id := 4, row := 3, col := 1, type := some V, text := "🌿" },
    { id := 5, row := 3, col := 4, type := some V, text := "🌿" },
    { id := 6, row := 3, col := 2, type := some H, text := "🍃" },
    { id := 7, row := 4, col := 2, type := none, text := "🦋" },
    { id := 8, row := 4, col := 3, type := none, text := "🦜" },
    { id := 9, row := 5, col := 1, type := none, text := "🦎" },
    { id := 10, row := 5, col := 4, type := none, text := "🐛" } ]

/-- The ten piece ids of the puzzle, in definition order. -/
def puzzleIds : List Nat := initialPieces.map (fun p => p.id)

/-- Pixel rectangle of a piece of the given type placed at a grid cell. -/
def calculatePosition (row col : Int) (type : Option Nat) : PiecePosition :=
  let top := MARGIN * row + (SIZE * (row - 1) + BORDER * 2 * row)
  let left := MARGIN * col + (SIZE * (col - 1) + BORDER * 2 * col)
  let width := if type == some H || type == some HV then RECTANGLE else SIZE
  let height := if type == some V || type == some HV then RECTANGLE else SIZE
  { top := top, left := left, width := width, height := height }

/-- Open-rectangle intersection test on pixel rectangles. -/
def isIntersect (pos : PixelPos) (aWidth aHeight : Int) (b : PiecePosition) : Bool :=
  let aTop := pos.top
  let aLeft := pos.left
  let aBottom := aTop + aHeight
  let aRight := aLeft + aWidth
  let bTop := b.top
  let bLeft := b.left
  let bBottom := bTop + b.height
  let bRight := bLeft + b.width
  !(decide (bLeft ≥ aRight) || decide (bRight ≤ aLeft) ||
    decide (bTop ≥ aBottom) || decide (bBottom ≤ aTop))

/-- Map.set semantics on an association list: replace in place, else append. -/
def mapSet {β : Type} : List (Nat × β) → Nat → β → List (Nat × β)
  | [], k, v => [(k, v)]
  | e :: rest, k, v => if e.1 == k then (k, v) :: rest else e :: mapSet rest k v

/-- Canonical key of a state: all id:row,col triples sorted by id, joined by bars. -/
def serializeState (state : GameState) : String :=
  let sorted := List.insertionSort (fun a b => a.1 ≤ b.1) state.positions
  let positions := sorted.map (fun e => toString e.1 ++ ":" ++ toString e.2.row ++ "," ++ toString e.2.col)
  String.intercalate "|" positions

/-- Lookup of a piece's configuration; the source asserts the result non-null. -/
def getPieceConfig (id : Nat) : Option PieceConfig :=
  initialPieces.find? (fun p => p.id == id)

/-- Rows and cols of a piece derived from its type tag, when the id is known. -/
def getPieceSize? (pieceId : Nat) : Option (Int × Int) :=
  (initialPieces.find? (fun p => p.id == pieceId)).map (fun piece =>
    if piece.type == some H then ((1 : Int), (2 : Int))
    else if piece.type == some V then (2, 1)
    else if piece.type == some HV then (2, 2)
    else (1, 1))

/-- Rows and cols of a piece; the default is never consulted for this puzzle's
ids (`piece_lookup_total`), matching the non-null assertion of the source. -/
def getPieceSize (pieceId : Nat) : Int × Int :=
  (getPieceSize? pieceId).getD (1, 1)

/-- Bounds part of the grid legality check: the candidate rectangle lies in
rows 1..5 and cols 1..4. -/
def inBoundsB (pieceId : Nat) (pos : Pos) : Bool :=
  let size := getPieceSize pieceId
  !(decide (pos.row < 1) || decide (pos.col < 1) ||
    decide (pos.row + size.1 - 1 > 5) || decide (pos.col + size.2 - 1 > 4))

/-- Overlap part of the grid legality check between two placed pieces,
with the same rectangle arithmetic as `checkGridCollision`. -/
def rectsOverlapB (pieceId : Nat) (pos : Pos) (otherId : Nat) (otherPos : Pos) : Bool :=
  let size := getPieceSize pieceId
  let otherSize := getPieceSize otherId
  let thisRight := pos.col + size.2 - 1
  let thisBottom := pos.row + size.1 - 1
  let otherRight := otherPos.col + otherSize.2 - 1
  let otherBottom := otherPos.row + otherSize.1 - 1
  !(decide (pos.col > otherRight) || decide (thisRight < otherPos.col) ||
    decide (pos.row > otherBottom) || decide (thisBottom < otherPos.row))

/-- Grid legality check: true means the candidate placement is rejected,
either out of bounds or overlapping another piece of the state. -/
def checkGridCollision (pieceId : Nat) (row col : Int) (state : GameState) : Bool :=
  if inBoundsB pieceId { row := row, col := col } = false then true
  else
    state.positions.any (fun other =>
      if other.1 == pieceId then false
      else rectsOverlapB pieceId { row := row, col := col } other.1 other.2)

/-- All accepted single-step moves: each piece, each of the four directions,
kept when the grid legality check accepts the shifted placement. -/
def getPossibleMoves (state : GameState) : List Move :=
  state.positions.flatMap (fun e =>
    let pieceId := e.1
    let pos := e.2
    let directions : List Pos :=
      [ { row := pos.row - 1, col := pos.col },
        { row := pos.row + 1, col := pos.col },
        { row := pos.row, col := pos.col - 1 },
        { row := pos.row, col := pos.col + 1 } ]
    directions.filterMap (fun newPos =>
      if checkGridCollision pieceId newPos.row newPos.col state then none
      else some { pieceId := pieceId, toRow := newPos.row, toCol := newPos.col }))

/-- Manhattan distance from the panda's top-left cell to the target cell
(row 4, col 2); the source asserts the panda lookup non-null. -/
def calculateHeuristic (state : GameState) : Int :=
  match state.positions.lookup 2 with
  | some pandaPos =>
    let targetRow : Int := 4
    let targetCol : Int := 2
    |pandaPos.row - targetRow| + |pandaPos.col - targetCol|
  | none => 0

/-- Goal test applied to every dequeued solver node: the panda's top-left
cell is row 4, col 2. -/
def goalTestB (state : GameState) : Bool :=
  match state.positions.lookup 2 with
  | some pandaPos => pandaPos.row == 4 && pandaPos.col == 2
  | none => false

/-- Successor state of one solver move: a fresh copy of the position map
with the moved piece set to its destination. -/
def applyMove (state : GameState) (move : Move) : GameState :=
  { positions := mapSet state.positions move.pieceId { row := move.toRow, col := move.toCol } }

/-- A solver frontier node: state, move list from the start, priority g + h. -/
structure PriorityQueueItem where
  state : GameState
  moves : List Move
  priority : Int
deriving DecidableEq, Repr

/-- Defensive ceiling on the number of dequeued states. -/
def maxStates : Nat := 500000

/-- The fixed starting configuration, as the solver builds it. -/
def initialState : GameState :=
  { positions := initialPieces.map (fun p => (p.id, { row := p.row, col := p.col })) }

/-- Stable ascending sort of the frontier by priority, as the source's
queue.sort with comparator a.priority - b.priority. -/
def sortQueue (queue : List PriorityQueueItem) : List PriorityQueueItem :=
  List.insertionSort (fun a b => a.priority ≤ b.priority) queue

/-- Expansion of one dequeued node: for each generated move, the successor is
keyed, and when the key is unseen it is marked visited and the node is pushed
at the back of the queue. -/
def expandMoves (current : PriorityQueueItem) :
    List Move → List PriorityQueueItem → List String → List PriorityQueueItem × List String
  | [], queue, visited => (queue, visited)
  | move :: rest, queue, visited =>
    let newState := applyMove current.state move
    let stateKey := serializeState newState
    if visited.contains stateKey then
      expandMoves current rest queue visited
    else
      let newMoves := current.moves ++ [move]
      let priority := (newMoves.length : Int) + calculateHeuristic newState
      expandMoves current rest
        (queue ++ [{ state := newState, moves := newMoves, priority := priority }])
        (stateKey :: visited)

/-- The solver loop. The fuel argument is instantiated at `maxStates`; since
every iteration increments statesExplored and the guard requires
statesExplored < maxStates, fuel exhaustion coincides with the guard turning
false, so the embedding returns none exactly when the source loop ends. -/
def solveLoop : Nat → List PriorityQueueItem → List String → Nat → Option (List Move)
  | 0, _, _, _ => none
  | fuel + 1, queue, visited, statesExplored =>
    if statesExplored < maxStates then
      match sortQueue queue with
      | [] => none
      | current :: rest =>
        match current.state.positions.lookup 2 with
        | some pandaPos =>
          if pandaPos.row == 4 && pandaPos.col == 2 then some current.moves
          else
            let expanded := expandMoves current (getPossibleMoves current.state) rest visited
            solveLoop fuel expanded.1 expanded.2 (statesExplored + 1)
        | none => none
    else none

/-- A* search from the fixed initial configuration; none when the queue
empties or the explored-state ceiling is reached. -/
def solvePuzzle : Option (List Move) :=
  solveLoop maxStates
    [{ state := initialState, moves := [], priority := calculateHeuristic initialState }]
    [serializeState initialState] 0

/-- Result of the instrumented solver loop: the returned value, the final
dequeue count, and the canonical keys of every queue insertion in order. -/
structure TraceResult where
  result : Option (List Move)
  explored : Nat
  inserted : List String
deriving Repr

/-- Instrumented expansion: also returns the keys of the pushed nodes. -/
def expandMovesT (current : PriorityQueueItem) :
    List Move → List PriorityQueueItem → List String →
    List PriorityQueueItem × List String × List String
  | [], queue, visited => (queue, visited, [])
  | move :: rest, queue, visited =>
    let newState := applyMove current.state move
    let stateKey := serializeState newState
    if visited.contains stateKey then
      expandMovesT current rest queue visited
    else
      let newMoves := current.moves ++ [move]
      let priority := (newMoves.length : Int) + calculateHeuristic newState
      let r := expandMovesT current rest
        (queue ++ [{ state := newState, moves := newMoves, priority := priority }])
        (stateKey :: visited)
      (r.1, r.2.1, stateKey :: r.2.2)

/-- Instrumented solver loop; mirrors `solveLoop` step by step. -/
def solveLoopT : Nat → List PriorityQueueItem → List String → Nat → TraceResult
  | 0, _, _, statesExplored => { result := none, explored := statesExplored, inserted := [] }
  | fuel + 1, queue, visited, statesExplored =>
    if statesExplored < maxStates then
      match sortQueue queue with
      | [] => { result := none, explored := statesExplored, inserted := [] }
      | current :: rest =>
        match current.state.positions.lookup 2 with
        | some pandaPos =>
          if pandaPos.row == 4 && pandaPos.col == 2 then
            { result := some current.moves, explored := statesExplored + 1, inserted := [] }
          else
            let expanded := expandMovesT current (getPossibleMoves current.state) rest visited
            let r := solveLoopT fuel expanded.1 expanded.2.1 (statesExplored + 1)
            { result := r.result, explored := r.explored, inserted := expanded.2.2 ++ r.inserted }
        | none => { result := none, explored := statesExplored + 1, inserted := [] }
    else { result := none, explored := statesExplored, inserted := [] }

/-- Dequeue trace of the solver loop: the same loop as `solveLoop`, also
returning the dequeued nodes in order, so that "a dequeued node" is a
statement about the actual run. -/
def solveLoopD : Nat → List PriorityQueueItem → List String → Nat →
    Option (List Move) × List PriorityQueueItem
  | 0, _, _, _ => (none, [])
  | fuel + 1, queue, visited, statesExplored =>
    if statesExplored < maxStates then
      match sortQueue queue with
      | [] => (none, [])
      | current :: rest =>
        match current.state.positions.lookup 2 with
        | some pandaPos =>
          if pandaPos.row == 4 && pandaPos.col == 2 then (some current.moves, [current])
          else
            let expanded := expandMoves current (getPossibleMoves current.state) rest visited
            let r := solveLoopD fuel expanded.1 expanded.2 (statesExplored + 1)
            (r.1, current :: r.2)
        | none => (none, [current])
    else (none, [])

/-- Endpoint collision test of the drag layer: the candidate pixel rectangle
of the dragged piece against every other piece's pixel rectangle. -/
def checkCollisions (positions : List (Nat × PiecePosition)) (draggedId : Nat)
    (newPos : PixelPos) (width height : Int) : Bool :=
  positions.any (fun e =>
    if e.1 == draggedId then false
    else isIntersect newPos width height e.2)

/-- Path clearance of the drag layer: walks from the start position toward the
target one grid pitch at a time and requires every step, endpoint included,
to be collision free. -/
def isPathClear (positions : List (Nat × PiecePosition)) (startPos : PiecePosition)
    (targetPos : PixelPos) (width height : Int) (pieceId : Nat) : Bool :=
  let deltaX := targetPos.left - startPos.left
  let deltaY := targetPos.top - startPos.top
  let steps := max deltaX.natAbs deltaY.natAbs / GRID_SIZE.toNat
  let stepX := if deltaX = 0 then 0 else GRID_SIZE * deltaX.sign
  let stepY := if deltaY = 0 then 0 else GRID_SIZE * deltaY.sign
  (List.range steps).all (fun i =>
    let step : Int := (i : Int) + 1
    !(checkCollisions positions pieceId
      { left := startPos.left + stepX * step, top := startPos.top + stepY * step }
      width height))

/-- Decision and commit part of the drag handler: the snapped candidate
coordinates are validated by the endpoint collision test and the path
clearance test, and the position map is updated only when both accept. -/
def handleDragMove (positions : List (Nat × PiecePosition)) (draggingId : Nat)
    (startPos currentPos : PiecePosition) (newTop newLeft : Int) :
    List (Nat × PiecePosition) :=
  let hasCollision := checkCollisions positions draggingId
    { top := newTop, left := newLeft } currentPos.width currentPos.height
  let hasClearPath := isPathClear positions startPos
    { top := newTop, left := newLeft } currentPos.width currentPos.height draggingId
  if !hasCollision && hasClearPath then
    mapSet positions draggingId
      { currentPos with top := newTop, left := newLeft }
  else positions

/-- States reachable from the fixed initial configuration by accepted
single-step moves. -/
inductive Reachable : GameState → Prop
  | init : Reachable initialState
  | step {s : GameState} {m : Move} : Reachable s → m ∈ getPossibleMoves s →
      Reachable (applyMove s m)

/-- The three state invariants: the id list is exactly the fixed ten, every
footprint lies in bounds, and footprints are pairwise disjoint. -/
def StateInv (s : GameState) : Prop :=
  s.positions.map Prod.fst = puzzleIds ∧
  (∀ e ∈ s.positions, inBoundsB e.1 e.2 = true) ∧
  s.positions.Pairwise (fun a b => rectsOverlapB a.1 a.2 b.1 b.2 = false)

instance : ∀ s : GameState, Decidable (StateInv s) := fun s => by
  unfold StateInv; infer_instance

/-- Legality of a move sequence: each move is generated by the single-step
move generator in the state reached so far. -/
def ValidSeq : GameState → List Move → Prop
  | _, [] => True
  | s, m :: ms => m ∈ getPossibleMoves s ∧ ValidSeq (applyMove s m) ms

/-- Replay of a move sequence. -/
def applySeq (s : GameState) (ms : List Move) : GameState :=
  ms.foldl applyMove s

def decValidSeq : (s : GameState) → (ms : List Move) → Decidable (ValidSeq s ms)
  | _, [] => isTrue trivial
  | s, m :: ms =>
    have : Decidable (ValidSeq (applyMove s m) ms) := decValidSeq (applyMove s m) ms
    inferInstanceAs (Decidable (_ ∧ _))

instance : ∀ (s : GameState) (ms : List Move), Decidable (ValidSeq s ms) := decValidSeq

/-- Keys of the states carried by a queue, in queue order. -/
def queueKeys (q : List PriorityQueueItem) : List String :=
  q.map (fun it => serializeState it.state)

instance : IsTotal (Nat × Pos) (fun a b => a.1 ≤ b.1) :=
  ⟨fun a b => Nat.le_total a.1 b.1⟩

instance : IsTrans (Nat × Pos) (fun a b => a.1 ≤ b.1) :=
  ⟨fun _ _ _ hab hbc => Nat.le_trans hab hbc⟩

lemma bool_eq_of_false_iff {b c : Bool} (h : b = false ↔ c = false) : b = c := by
  cases b <;> cases c <;> simp_all

lemma rectsOverlapB_eq_false_iff (i : Nat) (p : Pos) (j : Nat) (q : Pos) :
    rectsOverlapB i p j q = false ↔
      (p.col > q.col + (getPieceSize j).2 - 1 ∨ p.col + (getPieceSize i).2 - 1 < q.col ∨
       p.row > q.row + (getPieceSize j).1 - 1 ∨ p.row + (getPieceSize i).1 - 1 < q.row) := by
  simp only [rectsOverlapB]
  simp
  omega

lemma rectsOverlapB_symm (i : Nat) (p : Pos) (j : Nat) (q : Pos) :
    rectsOverlapB i p j q = rectsOverlapB j q i p := by
  refine bool_eq_of_false_iff ?_
  rw [rectsOverlapB_eq_false_iff, rectsOverlapB_eq_false_iff]
  omega

lemma inBoundsB_eq_true_iff (i : Nat) (p : Pos) :
    inBoundsB i p = true ↔
      (1 ≤ p.row ∧ 1 ≤ p.col ∧ p.row + (getPieceSize i).1 - 1 ≤ 5 ∧
       p.col + (getPieceSize i).2 - 1 ≤ 4) := by
  simp [inBoundsB]; omega

lemma checkGridCollision_eq_false_iff (pieceId : Nat) (row col : Int) (s : GameState) :
    checkGridCollision pieceId row col s = false ↔
      (inBoundsB pieceId { row := row, col := col } = true ∧
       ∀ e ∈ s.positions, e.1 ≠ pieceId →
         rectsOverlapB pieceId { row := row, col := col } e.1 e.2 = false) := by
  unfold checkGridCollision
  split
  next h => simp_all
  next h =>
    rw [Bool.not_eq_false] at h
    simp only [h, true_and, List.any_eq_false]
    constructor
    · intro hall e he hne
      have := hall e he
      simp [hne] at this
      exact this
    · intro hall e he
      by_cases hne : e.1 = pieceId
      · simp [hne]
      · simp [hne, hall e he hne]

lemma mapSet_map_fst {β : Type} (l : List (Nat × β)) (k : Nat) (v : β) :
    (mapSet l k v).map Prod.fst =
      if k ∈ l.map Prod.fst then l.map Prod.fst else l.map Prod.fst ++ [k] := by
  induction l with
  | nil => simp [mapSet]
  | cons e rest ih =>
    simp only [mapSet]
    by_cases h : e.1 = k
    · simp [h]
    · have h2 : ¬ k = e.1 := fun hk => h hk.symm
      simp only [beq_iff_eq, h, if_false, List.map_cons, ih]
      by_cases hmem : k ∈ rest.map Prod.fst
      · simp [hmem, h2, List.mem_cons]
      · simp [hmem, h2, List.mem_cons]

lemma mapSet_map_fst_of_mem {β : Type} {l : List (Nat × β)} {k : Nat} (v : β)
    (h : k ∈ l.map Prod.fst) : (mapSet l k v).map Prod.fst = l.map Prod.fst := by
  rw [mapSet_map_fst, if_pos h]

lemma mem_mapSet_of_nodup {β : Type} {l : List (Nat × β)} (hnd : (l.map Prod.fst).Nodup)
    (k : Nat) (v : β) : ∀ e ∈ mapSet l k v, e = (k, v) ∨ (e ∈ l ∧ e.1 ≠ k) := by
  induction l with
  | nil => intro e he; simp [mapSet] at he; simp [he]
  | cons f rest ih =>
    intro e he
    simp only [mapSet] at he
    by_cases h : f.1 = k
    · simp only [h, beq_self_eq_true, if_true, List.mem_cons] at he
      rcases he with he | he
      · exact Or.inl he
      · refine Or.inr ⟨List.mem_cons_of_mem f he, ?_⟩
        simp only [List.map_cons, List.nodup_cons, h] at hnd
        intro hk
        exact hnd.1 (hk ▸ List.mem_map_of_mem Prod.fst he)
    · simp only [beq_iff_eq, h, if_false, List.mem_cons] at he
      rcases he with he | he
      · exact Or.inr ⟨by simp [he], by simp [he, h]⟩
      · rcases ih (by simp_all [List.nodup_cons]) e he with h2 | h2
        · exact Or.inl h2
        · exact Or.inr ⟨List.mem_cons_of_mem f h2.1, h2.2⟩

lemma pairwise_mapSet {β : Type} {R : Nat × β → Nat × β → Prop} {l : List (Nat × β)}
    (hnd : (l.map Prod.fst).Nodup) (k : Nat) (v : β)
    (hR : ∀ e ∈ l, e.1 ≠ k → R (k, v) e ∧ R e (k, v))
    (hp : l.Pairwise R) : (mapSet l k v).Pairwise R := by
  induction l with
  | nil => simp [mapSet]
  | cons f rest ih =>
    simp only [List.map_cons, List.nodup_cons] at hnd
    rcases List.pairwise_cons.1 hp with ⟨hf, hrest⟩
    simp only [mapSet]
    by_cases h : f.1 = k
    · simp only [h, beq_self_eq_true, if_true]
      refine List.pairwise_cons.2 ⟨?_, hrest⟩
      intro e he
      have hek : e.1 ≠ k := by
        intro hk
        exact hnd.1 (h ▸ hk ▸ List.mem_map_of_mem Prod.fst he)
      exact (hR e (List.mem_cons_of_mem f he) hek).1
    · simp only [beq_iff_eq, h, if_false]
      refine List.pairwise_cons.2 ⟨?_, ih hnd.2 (fun e he hek => hR e (List.mem_cons_of_mem f he) hek) hrest⟩
      intro e he
      rcases mem_mapSet_of_nodup hnd.2 k v e he with he2 | he2
      · exact he2 ▸ (hR f (List.mem_cons_self f rest) h).2
      · exact hf e he2.1

lemma mem_getPossibleMoves {s : GameState} {m : Move} (h : m ∈ getPossibleMoves s) :
    checkGridCollision m.pieceId m.toRow m.toCol s = false ∧
      ∃ p : Pos, (m.pieceId, p) ∈ s.positions ∧
        ((m.toRow = p.row - 1 ∧ m.toCol = p.col) ∨ (m.toRow = p.row + 1 ∧ m.toCol = p.col) ∨
         (m.toRow = p.row ∧ m.toCol = p.col - 1) ∨ (m.toRow = p.row ∧ m.toCol = p.col + 1)) := by
  unfold getPossibleMoves at h
  rw [List.mem_flatMap] at h
  obtain ⟨e, he, hm⟩ := h
  rw [List.mem_filterMap] at hm
  obtain ⟨np, hnp, hite⟩ := hm
  by_cases hc : checkGridCollision e.1 np.row np.col s
  · simp [hc] at hite
  · rw [Bool.not_eq_true] at hc
    simp only [hc, Bool.false_eq_true, if_false, Option.some.injEq] at hite
    subst hite
    simp only [List.mem_cons, List.not_mem_nil, or_false] at hnp
    refine ⟨hc, e.2, by simpa using he, ?_⟩
    rcases hnp with h1 | h1 | h1 | h1 <;> subst h1 <;> simp

lemma puzzleIds_nodup : puzzleIds.Nodup := by decide

lemma stateInv_applyMove {s : GameState} {m : Move} (hinv : StateInv s)
    (hid : m.pieceId ∈ s.positions.map Prod.fst)
    (hc : checkGridCollision m.pieceId m.toRow m.toCol s = false) :
    StateInv (applyMove s m) := by
  obtain ⟨hkeys, hbounds, hdisj⟩ := hinv
  have hnd : (s.positions.map Prod.fst).Nodup := hkeys ▸ puzzleIds_nodup
  rcases (checkGridCollision_eq_false_iff _ _ _ _).1 hc with ⟨hb, hov⟩
  refine ⟨?_, ?_, ?_⟩
  · rw [applyMove]
    simpa [mapSet_map_fst_of_mem _ hid] using hkeys
  · intro e he
    rcases mem_mapSet_of_nodup hnd m.pieceId { row := m.toRow, col := m.toCol } e he with h2 | h2
    · subst h2; exact hb
    · exact hbounds e h2.1
  · refine pairwise_mapSet hnd m.pieceId { row := m.toRow, col := m.toCol } ?_ hdisj
    intro e he hek
    have := hov e he hek
    exact ⟨this, by rw [rectsOverlapB_symm]; exact this⟩

lemma reachable_stateInv : ∀ s : GameState, Reachable s → StateInv s := by
  intro s h
  induction h with
  | init => decide
  | step hr hm ih =>
    rcases mem_getPossibleMoves hm with ⟨hc, p, hp, _⟩
    exact stateInv_applyMove ih (List.mem_map_of_mem Prod.fst hp) hc

/-- C3: every state reachable from the initial configuration by accepted
single-step moves satisfies the three invariants (bounds, pairwise
disjointness, fixed id set), and whenever the legality predicate accepts a
candidate placement for a piece of an invariant-satisfying state, the state
with that one piece moved there satisfies the invariants as well. -/
theorem reachable_states_satisfy_invariants :
    (∀ s : GameState, Reachable s → StateInv s) ∧
    (∀ (s : GameState) (id : Nat) (r c : Int), StateInv s →
      id ∈ s.positions.map Prod.fst →
      checkGridCollision id r c s = false →
      StateInv (applyMove s { pieceId := id, toRow := r, toCol := c })) :=
  ⟨reachable_stateInv, fun _ _ _ _ hinv hid hc => stateInv_applyMove hinv hid hc⟩

theorem reachable_states_satisfy_invariants_witness :
    StateInv initialState ∧
    StateInv (applyMove initialState { pieceId := 7, toRow := 5, toCol := 2 }) :=
  ⟨reachable_states_satisfy_invariants.1 initialState Reachable.init,
   reachable_states_satisfy_invariants.2 initialState 7 5 2 (by decide) (by decide) (by decide)⟩

/-- C9: when the snapped drag target fails the endpoint collision check or
the path-clearance check, the drag handler returns the position map
unchanged: a rejected relocation mutates nothing. -/
theorem drag_reject_no_mutation
    (positions : List (Nat × PiecePosition)) (draggingId : Nat)
    (startPos currentPos : PiecePosition) (newTop newLeft : Int)
    (h : checkCollisions positions draggingId { top := newTop, left := newLeft }
           currentPos.width currentPos.height = true ∨
         isPathClear positions startPos { top := newTop, left := newLeft }
           currentPos.width currentPos.height draggingId = false) :
    handleDragMove positions draggingId startPos currentPos newTop newLeft = positions := by
  unfold handleDragMove
  rcases h with h | h <;> simp [h]

theorem drag_reject_no_mutation_witness :
    checkCollisions [(9, { top := 350, left := 6, width := 80, height := 80 })] 7
        { top := 350, left := 6 } (80 : Int) (80 : Int) = true ∧
    handleDragMove [(9, { top := 350, left := 6, width := 80, height := 80 })] 7
        { top := 264, left := 6, width := 80, height := 80 }
        { top := 264, left := 6, width := 80, height := 80 } 350 6 =
      [(9, { top := 350, left := 6, width := 80, height := 80 })] :=
  ⟨by decide,
   drag_reject_no_mutation _ 7 { top := 264, left := 6, width := 80, height := 80 }
     { top := 264, left := 6, width := 80, height := 80 } 350 6 (Or.inl (by decide))⟩

lemma getPieceConfig_isSome_of_mem {id : Nat} (h : id ∈ puzzleIds) :
    (getPieceConfig id).isSome = true := by
  unfold puzzleIds at h
  rcases List.mem_map.1 h with ⟨p, hp, hpid⟩
  unfold getPieceConfig
  rw [List.find?_isSome]
  exact ⟨p, hp, by simp [hpid]⟩

/-- C10: the non-null-asserted piece lookups are total on this puzzle's ids:
for every id among the fixed ten, and in particular for every id appearing in
the position map of a reachable state, the Option-typed embeddings of
getPieceConfig and getPieceSize do not return none. -/
theorem piece_lookup_total :
    (∀ id ∈ puzzleIds, getPieceConfig id ≠ none ∧ getPieceSize? id ≠ none) ∧
    (∀ s : GameState, Reachable s → ∀ id ∈ s.positions.map Prod.fst,
      getPieceConfig id ≠ none ∧ getPieceSize? id ≠ none) := by
  have base : ∀ id ∈ puzzleIds, getPieceConfig id ≠ none ∧ getPieceSize? id ≠ none := by
    intro id hid
    have h := getPieceConfig_isSome_of_mem hid
    refine ⟨by simp [Option.isSome_iff_ne_none] at h; exact h, ?_⟩
    unfold getPieceSize? 
    unfold getPieceConfig at h
    rcases Option.isSome_iff_exists.1 h with ⟨p, hp⟩
    simp [hp]
  refine ⟨base, fun s hr id hid => ?_⟩
  have hkeys := (reachable_stateInv s hr).1
  exact base id (hkeys ▸ hid)

theorem piece_lookup_total_witness :
    (getPieceConfig 7 ≠ none ∧ getPieceSize? 7 ≠ none) ∧
    (getPieceConfig 2 ≠ none ∧ getPieceSize? 2 ≠ none) :=
  ⟨piece_lookup_total.1 7 (by decide),
   piece_lookup_total.2 initialState Reachable.init 2 (by decide)⟩

lemma lookup_mapSet_self {β : Type} (l : List (Nat × β)) (k : Nat) (v : β) :
    (mapSet l k v).lookup k = some v := by
  induction l with
  | nil => simp [mapSet, List.lookup]
  | cons e rest ih =>
    simp only [mapSet]
    by_cases h : e.1 = k
    · simp [h, List.lookup]
    · have h2 : (k == e.1) = false := by
        simp
        exact fun hk => h hk.symm
      simp [h, List.lookup, h2, ih]

lemma lookup_mapSet_ne {β : Type} (l : List (Nat × β)) (k j : Nat) (v : β) (h : j ≠ k) :
    (mapSet l k v).lookup j = l.lookup j := by
  have hjk : (j == k) = false := by simp [h]
  induction l with
  | nil => simp [mapSet, List.lookup, hjk]
  | cons e rest ih =>
    simp only [mapSet]
    by_cases he : e.1 = k
    · subst he
      simp [List.lookup, hjk]
    · simp only [beq_iff_eq, he, if_false]
      by_cases hj : j = e.1
      · have hj2 : (j == e.1) = true := by simp [hj]
        simp [List.lookup, hj2]
      · have hj2 : (j == e.1) = false := by simp [hj]
        simp [List.lookup, hj2, ih]

lemma lookup_eq_some_of_mem_nodup {β : Type} {l : List (Nat × β)}
    (hnd : (l.map Prod.fst).Nodup) {k : Nat} {v : β} (h : (k, v) ∈ l) :
    l.lookup k = some v := by
  induction l with
  | nil => simp at h
  | cons e rest ih =>
    simp only [List.map_cons, List.nodup_cons] at hnd
    rcases List.mem_cons.1 h with he | he
    · simp [← he, List.lookup]
    · have hk : (k == e.1) = false := by
        simp only [beq_eq_false_iff_ne, ne_eq]
        intro hk
        exact hnd.1 (hk ▸ List.mem_map_of_mem Prod.fst he)
      simp [List.lookup, hk, ih hnd.2 he]

lemma mapSet_map_fst_nodup {β : Type} (l : List (Nat × β)) (k : Nat) (v : β)
    (h : (l.map Prod.fst).Nodup) : ((mapSet l k v).map Prod.fst).Nodup := by
  rw [mapSet_map_fst]
  by_cases hmem : k ∈ l.map Prod.fst
  · simpa [hmem] using h
  · simp [hmem, List.nodup_append, h]

lemma heuristic_nonneg (s : GameState) : 0 ≤ calculateHeuristic s := by
  unfold calculateHeuristic
  cases s.positions.lookup 2 with
  | none => simp
  | some p => exact add_nonneg (abs_nonneg _) (abs_nonneg _)

lemma goal_heuristic_zero {s : GameState} (h : goalTestB s = true) :
    calculateHeuristic s = 0 := by
  unfold goalTestB at h
  unfold calculateHeuristic
  cases hl : s.positions.lookup 2 with
  | none => simp
  | some p =>
    rw [hl] at h
    simp only [Bool.and_eq_true, beq_iff_eq] at h
    simp [h.1, h.2]

lemma heuristic_consistent {s : GameState} {m : Move}
    (hnd : (s.positions.map Prod.fst).Nodup) (hm : m ∈ getPossibleMoves s) :
    calculateHeuristic s ≤ 1 + calculateHeuristic (applyMove s m) := by
  rcases mem_getPossibleMoves hm with ⟨_, p, hp, hdir⟩
  by_cases h2 : m.pieceId = 2
  · have hl : s.positions.lookup 2 = some p :=
      lookup_eq_some_of_mem_nodup hnd (h2 ▸ hp)
    have hl2 : (applyMove s m).positions.lookup 2 =
        some { row := m.toRow, col := m.toCol } := by
      rw [applyMove, ← h2]
      exact lookup_mapSet_self _ _ _
    simp only [calculateHeuristic, hl, hl2, Int.abs_eq_natAbs]
    rcases hdir with ⟨h3, h4⟩ | ⟨h3, h4⟩ | ⟨h3, h4⟩ | ⟨h3, h4⟩ <;> rw [h3, h4] <;> omega
  · have hl2 : (applyMove s m).positions.lookup 2 = s.positions.lookup 2 := by
      rw [applyMove]
      exact lookup_mapSet_ne _ _ _ _ (fun h => h2 h.symm)
    simp only [calculateHeuristic, hl2]
    cases s.positions.lookup 2 with
    | none => simp
    | some q => omega

lemma heuristic_le_path_length :
    ∀ (ms : List Move) (s : GameState), (s.positions.map Prod.fst).Nodup →
      ValidSeq s ms → goalTestB (applySeq s ms) = true →
      calculateHeuristic s ≤ (ms.length : Int) := by
  intro ms
  induction ms with
  | nil =>
    intro s _ _ hg
    rw [applySeq, List.foldl_nil] at hg
    simp [goal_heuristic_zero hg]
  | cons m rest ih =>
    intro s hnd hv hg
    rcases hv with ⟨hm, hv⟩
    have h1 := heuristic_consistent hnd hm
    have hnd2 : ((applyMove s m).positions.map Prod.fst).Nodup :=
      mapSet_map_fst_nodup _ _ _ hnd
    have hg2 : goalTestB (applySeq (applyMove s m) rest) = true := by
      rw [applySeq, List.foldl_cons] at hg
      exact hg
    have h2 := ih (applyMove s m) hnd2 hv hg2
    simp only [List.length_cons]
    omega

/-- C6: the Manhattan-distance heuristic is nonnegative, vanishes on goal
states, is consistent along every accepted single-step move (it drops by at
most one per move), and therefore never exceeds the length of any legal move
sequence from a state to the goal. -/
theorem heuristic_admissible_consistent :
    (∀ s : GameState, 0 ≤ calculateHeuristic s) ∧
    (∀ s : GameState, goalTestB s = true → calculateHeuristic s = 0) ∧
    (∀ (s : GameState) (m : Move), (s.positions.map Prod.fst).Nodup →
      m ∈ getPossibleMoves s →
      calculateHeuristic s ≤ 1 + calculateHeuristic (applyMove s m)) ∧
    (∀ (s : GameState) (ms : List Move), (s.positions.map Prod.fst).Nodup →
      ValidSeq s ms → goalTestB (applySeq s ms) = true →
      calculateHeuristic s ≤ (ms.length : Int)) :=
  ⟨heuristic_nonneg, fun _ h => goal_heuristic_zero h,
   fun _ _ hnd hm => heuristic_consistent hnd hm,
   fun s ms hnd hv hg => heuristic_le_path_length ms s hnd hv hg⟩

theorem heuristic_admissible_consistent_witness :
    0 ≤ calculateHeuristic initialState ∧
    calculateHeuristic { positions := [(2, { row := 4, col := 2 })] } = 0 ∧
    calculateHeuristic initialState ≤
      1 + calculateHeuristic (applyMove initialState { pieceId := 7, toRow := 5, toCol := 2 }) ∧
    calculateHeuristic { positions := [(2, { row := 4, col := 2 })] } ≤ (([] : List Move).length : Int) :=
  ⟨heuristic_admissible_consistent.1 initialState,
   heuristic_admissible_consistent.2.1 { positions := [(2, { row := 4, col := 2 })] } (by decide),
   heuristic_admissible_consistent.2.2.1 initialState { pieceId := 7, toRow := 5, toCol := 2 }
     (by decide) (by decide),
   heuristic_admissible_consistent.2.2.2 { positions := [(2, { row := 4, col := 2 })] } []
     (by decide) trivial (by decide)⟩

lemma find_self : ∀ p ∈ initialPieces,
    initialPieces.find? (fun q => q.id == p.id) = some p := by
  intro p hp
  simp only [initialPieces, List.mem_cons, List.not_mem_nil, or_false] at hp
  rcases hp with rfl|rfl|rfl|rfl|rfl|rfl|rfl|rfl|rfl|rfl <;> rfl

lemma piece_metrics : ∀ p ∈ initialPieces, ∀ r c : Int,
    (calculatePosition r c p.type).top = GRID_SIZE * r - SIZE ∧
    (calculatePosition r c p.type).left = GRID_SIZE * c - SIZE ∧
    (calculatePosition r c p.type).width = GRID_SIZE * (getPieceSize p.id).2 - GRID_OFFSET ∧
    (calculatePosition r c p.type).height = GRID_SIZE * (getPieceSize p.id).1 - GRID_OFFSET ∧
    1 ≤ (getPieceSize p.id).1 ∧ 1 ≤ (getPieceSize p.id).2 := by
  intro p hp r c
  have hgs : getPieceSize p.id =
      (if p.type == some H then ((1 : Int), (2 : Int))
       else if p.type == some V then (2, 1)
       else if p.type == some HV then (2, 2)
       else (1, 1)) := by
    simp [getPieceSize, getPieceSize?, find_self p hp]
  refine ⟨?_, ?_, ?_, ?_, ?_, ?_⟩
  · simp only [calculatePosition, GRID_SIZE, SIZE, MARGIN, BORDER]; ring
  · simp only [calculatePosition, GRID_SIZE, SIZE, MARGIN, BORDER]; ring
  · rw [hgs]
    by_cases h1 : p.type == some H
    · have h3 : (p.type == some HV) = false := by
        simp only [beq_iff_eq] at h1 ⊢
        simp [h1, H, HV]
      simp [calculatePosition, h1, h3, RECTANGLE, GRID_SIZE, GRID_OFFSET, SIZE, MARGIN, BORDER]
    · by_cases h2 : p.type == some V
      · have h3 : (p.type == some HV) = false := by
          simp only [beq_iff_eq] at h2 ⊢
          simp [h2, V, HV]
        simp [calculatePosition, h1, h2, h3, GRID_SIZE, GRID_OFFSET, SIZE, MARGIN, BORDER]
      · by_cases h3 : p.type == some HV
        · simp [calculatePosition, h1, h2, h3, RECTANGLE, GRID_SIZE, GRID_OFFSET, SIZE, MARGIN, BORDER]
        · simp [calculatePosition, h1, h2, h3, GRID_SIZE, GRID_OFFSET, SIZE, MARGIN, BORDER]
  · rw [hgs]
    by_cases h1 : p.type == some H
    · have h2 : ¬ (p.type == some V) := by
        simp only [beq_iff_eq] at h1 ⊢; simp [h1, V, H]
      have h3 : ¬ (p.type == some HV) := by
        simp only [beq_iff_eq] at h1 ⊢; simp [h1, HV, H]
      simp [calculatePosition, h1, h2, h3, GRID_SIZE, GRID_OFFSET, SIZE, MARGIN, BORDER]
    · by_cases h2 : p.type == some V
      · simp [calculatePosition, h1, h2, RECTANGLE, GRID_SIZE, GRID_OFFSET, SIZE, MARGIN, BORDER]
      · by_cases h3 : p.type == some HV
        · simp [calculatePosition, h1, h2, h3, RECTANGLE, GRID_SIZE, GRID_OFFSET, SIZE, MARGIN, BORDER]
        · simp [calculatePosition, h1, h2, h3, GRID_SIZE, GRID_OFFSET, SIZE, MARGIN, BORDER]
  · rw [hgs]
    by_cases h1 : p.type == some H
    · simp [h1]
    · by_cases h2 : p.type == some V
      · simp [h1, h2]
      · by_cases h3 : p.type == some HV
        · simp [h1, h2, h3]
        · simp [h1, h2, h3]
  · rw [hgs]
    by_cases h1 : p.type == some H
    · simp [h1]
    · by_cases h2 : p.type == some V
      · simp [h1, h2]
      · by_cases h3 : p.type == some HV
        · simp [h1, h2, h3]
        · simp [h1, h2, h3]

lemma pixel_grid_pair_agree : ∀ p1 ∈ initialPieces, ∀ p2 ∈ initialPieces,
    ∀ r1 c1 r2 c2 : Int,
    isIntersect
        { top := (calculatePosition r1 c1 p1.type).top,
          left := (calculatePosition r1 c1 p1.type).left }
        (calculatePosition r1 c1 p1.type).width
        (calculatePosition r1 c1 p1.type).height
        (calculatePosition r2 c2 p2.type) =
      rectsOverlapB p1.id { row := r1, col := c1 } p2.id { row := r2, col := c2 } := by
  intro p1 hp1 p2 hp2 r1 c1 r2 c2
  obtain ⟨ht1, hl1, hw1, hh1, hr1, hc1b⟩ := piece_metrics p1 hp1 r1 c1
  obtain ⟨ht2, hl2, hw2, hh2, hr2, hc2b⟩ := piece_metrics p2 hp2 r2 c2
  refine bool_eq_of_false_iff ?_
  simp only [isIntersect, rectsOverlapB, ht1, hl1, hw1, hh1, ht2, hl2, hw2, hh2,
    GRID_SIZE, GRID_OFFSET, SIZE, MARGIN, BORDER]
  simp
  omega

/-- C4: for every pair of this puzzle's pieces at arbitrary grid placements,
the pixel-rectangle intersection test of the drag layer agrees exactly with
the grid-rectangle overlap test of the move generator under the grid-to-pixel
coordinate map, and hence with the grid legality check itself for in-bounds
candidates: the two representations never disagree. -/
theorem pixel_grid_overlap_agreement :
    (∀ p1 ∈ initialPieces, ∀ p2 ∈ initialPieces, ∀ r1 c1 r2 c2 : Int,
      isIntersect
          { top := (calculatePosition r1 c1 p1.type).top,
            left := (calculatePosition r1 c1 p1.type).left }
          (calculatePosition r1 c1 p1.type).width
          (calculatePosition r1 c1 p1.type).height
          (calculatePosition r2 c2 p2.type) =
        rectsOverlapB p1.id { row := r1, col := c1 } p2.id { row := r2, col := c2 }) ∧
    (∀ p1 ∈ initialPieces, ∀ p2 ∈ initialPieces, ∀ r1 c1 r2 c2 : Int,
      p2.id ≠ p1.id →
      inBoundsB p1.id { row := r1, col := c1 } = true →
      checkGridCollision p1.id r1 c1 { positions := [(p2.id, { row := r2, col := c2 })] } =
        isIntersect
          { top := (calculatePosition r1 c1 p1.type).top,
            left := (calculatePosition r1 c1 p1.type).left }
          (calculatePosition r1 c1 p1.type).width
          (calculatePosition r1 c1 p1.type).height
          (calculatePosition r2 c2 p2.type)) := by
  refine ⟨pixel_grid_pair_agree, ?_⟩
  intro p1 hp1 p2 hp2 r1 c1 r2 c2 hne hin
  rw [pixel_grid_pair_agree p1 hp1 p2 hp2 r1 c1 r2 c2]
  have hne2 : (p2.id == p1.id) = false := by simp [hne]
  simp only [checkGridCollision, hin, Bool.true_eq_false, if_false, List.any_cons,
    List.any_nil, hne2, Bool.false_eq_true, Bool.or_false]

theorem pixel_grid_overlap_agreement_witness :
    (isIntersect { top := (calculatePosition 1 2 (some HV)).top,
                   left := (calculatePosition 1 2 (some HV)).left }
        (calculatePosition 1 2 (some HV)).width
        (calculatePosition 1 2 (some HV)).height
        (calculatePosition 3 2 (some H)) =
      rectsOverlapB 2 { row := 1, col := 2 } 6 { row := 3, col := 2 }) ∧
    (checkGridCollision 2 3 2 { positions := [(6, { row := 3, col := 2 })] } =
      isIntersect { top := (calculatePosition 3 2 (some HV)).top,
                    left := (calculatePosition 3 2 (some HV)).left }
        (calculatePosition 3 2 (some HV)).width
        (calculatePosition 3 2 (some HV)).height
        (calculatePosition 3 2 (some H))) := by
  constructor
  · have h := pixel_grid_overlap_agreement.1
      { id := 2, row := 1, col := 2, type := some HV, text := "🐼" } (by decide)
      { id := 6, row := 3, col := 2, type := some H, text := "🍃" } (by decide) 1 2 3 2
    exact h
  · have h := pixel_grid_overlap_agreement.2
      { id := 2, row := 1, col := 2, type := some HV, text := "🐼" } (by decide)
      { id := 6, row := 3, col := 2, type := some H, text := "🍃" } (by decide) 3 2 3 2
      (by decide) (by decide)
    exact h


lemma natAbs_grid_mul (k : Int) : (GRID_SIZE * k).natAbs = 86 * k.natAbs := by
  rw [Int.natAbs_mul]
  rfl

lemma grid_steps_div (k : Int) : (GRID_SIZE * k).natAbs / GRID_SIZE.toNat = k.natAbs := by
  rw [natAbs_grid_mul, show GRID_SIZE.toNat = 86 from rfl]
  exact Nat.mul_div_cancel_left k.natAbs (by norm_num)

lemma sign_grid_mul (k : Int) : (GRID_SIZE * k).sign = k.sign := by
  rw [show GRID_SIZE = (86 : Int) from rfl, Int.sign_mul,
    show (86 : Int).sign = 1 by decide, one_mul]

lemma isPathClear_axis_iff (positions : List (Nat × PiecePosition))
    (startPos : PiecePosition) (width height : Int) (pieceId : Nat) (kx ky : Int)
    (hax : kx = 0 ∨ ky = 0) :
    (isPathClear positions startPos
        { top := startPos.top + GRID_SIZE * ky, left := startPos.left + GRID_SIZE * kx }
        width height pieceId = true ↔
      ∀ j : Nat, 1 ≤ j → (j : Int) ≤ |kx| + |ky| →
        checkCollisions positions pieceId
          { top := startPos.top + GRID_SIZE * ky.sign * (j : Int),
            left := startPos.left + GRID_SIZE * kx.sign * (j : Int) } width height = false) := by
  have hdx : startPos.left + GRID_SIZE * kx - startPos.left = GRID_SIZE * kx := by ring
  have hdy : startPos.top + GRID_SIZE * ky - startPos.top = GRID_SIZE * ky := by ring
  unfold isPathClear
  simp only [hdx, hdy, List.all_eq_true, List.mem_range, Bool.not_eq_eq_eq_not, Bool.not_true]
  rcases hax with h0 | h0 <;> subst h0
  · -- kx = 0 : vertical relocation
    rw [show GRID_SIZE * (0 : Int) = 0 by ring]
    simp only [Int.natAbs_zero, Nat.zero_max, grid_steps_div,
      Int.sign_zero, mul_zero, zero_mul, add_zero, abs_zero, zero_add, ite_self]
    by_cases hky : ky = 0
    · subst hky
      constructor
      · intro _ j hj1 hj2
        simp only [abs_zero, add_zero, zero_add] at hj2
        omega
      · intro _ x hx
        exact absurd hx (by omega)
    · have hne : ¬ GRID_SIZE * ky = 0 := by
        simp [show GRID_SIZE = (86 : Int) from rfl, hky]
      rw [if_neg hne, sign_grid_mul]
      constructor
      · intro hall j hj1 hj2
        have hj2n : j ≤ ky.natAbs := by
          rw [Int.abs_eq_natAbs] at hj2
          exact_mod_cast hj2
        have hstep := hall (j - 1) (by omega)
        have hcast : ((j - 1 : Nat) : Int) + 1 = (j : Int) := by omega
        rw [hcast] at hstep
        exact hstep
      · intro hall i hi
        have hcast : ((i : Int) + 1) = ((i + 1 : Nat) : Int) := by push_cast; ring
        rw [hcast]
        refine hall (i + 1) (by omega) ?_
        rw [Int.abs_eq_natAbs]
        exact_mod_cast Nat.succ_le_of_lt hi
  · -- ky = 0 : horizontal relocation
    rw [show GRID_SIZE * (0 : Int) = 0 by ring]
    simp only [Int.natAbs_zero, Nat.max_zero, grid_steps_div,
      Int.sign_zero, mul_zero, zero_mul, add_zero, abs_zero, ite_self]
    by_cases hkx : kx = 0
    · subst hkx
      constructor
      · intro _ j hj1 hj2
        simp only [abs_zero, add_zero, zero_add] at hj2
        omega
      · intro _ x hx
        exact absurd hx (by omega)
    · have hne : ¬ GRID_SIZE * kx = 0 := by
        simp [show GRID_SIZE = (86 : Int) from rfl, hkx]
      rw [if_neg hne, sign_grid_mul]
      constructor
      · intro hall j hj1 hj2
        have hj2n : j ≤ kx.natAbs := by
          rw [Int.abs_eq_natAbs] at hj2
          exact_mod_cast hj2
        have hstep := hall (j - 1) (by omega)
        have hcast : ((j - 1 : Nat) : Int) + 1 = (j : Int) := by omega
        rw [hcast] at hstep
        exact hstep
      · intro hall i hi
        have hcast : ((i : Int) + 1) = ((i + 1 : Nat) : Int) := by push_cast; ring
        rw [hcast]
        refine hall (i + 1) (by omega) ?_
        rw [Int.abs_eq_natAbs]
        exact_mod_cast Nat.succ_le_of_lt hi

/-- C2: for a straight-line single-axis relocation by an arbitrary number of
grid cells, the path-clearance validation accepts exactly when every
intermediate grid step along the line, endpoint included, is collision free
against all other pieces; in particular it rejects a relocation whose
destination is free but whose path crosses an occupied cell, and a rejected
relocation leaves the position map untouched. -/
theorem validate_relocation_path_blocking :
    (∀ (positions : List (Nat × PiecePosition)) (startPos : PiecePosition)
        (width height : Int) (pieceId : Nat) (kx ky : Int), (kx = 0 ∨ ky = 0) →
      (isPathClear positions startPos
          { top := startPos.top + GRID_SIZE * ky, left := startPos.left + GRID_SIZE * kx }
          width height pieceId = true ↔
        ∀ j : Nat, 1 ≤ j → (j : Int) ≤ |kx| + |ky| →
          checkCollisions positions pieceId
            { top := startPos.top + GRID_SIZE * ky.sign * (j : Int),
              left := startPos.left + GRID_SIZE * kx.sign * (j : Int) }
            width height = false)) ∧
    (∀ (positions : List (Nat × PiecePosition)) (startPos : PiecePosition)
        (width height : Int) (pieceId : Nat) (kx ky : Int), (kx = 0 ∨ ky = 0) →
      checkCollisions positions pieceId
          { top := startPos.top + GRID_SIZE * ky, left := startPos.left + GRID_SIZE * kx }
          width height = false →
      (∃ j : Nat, 1 ≤ j ∧ (j : Int) < |kx| + |ky| ∧
        checkCollisions positions pieceId
          { top := startPos.top + GRID_SIZE * ky.sign * (j : Int),
            left := startPos.left + GRID_SIZE * kx.sign * (j : Int) }
          width height = true) →
      isPathClear positions startPos
        { top := startPos.top + GRID_SIZE * ky, left := startPos.left + GRID_SIZE * kx }
        width height pieceId = false) ∧
    (∀ (positions : List (Nat × PiecePosition)) (draggingId : Nat)
        (startPos currentPos : PiecePosition) (newTop newLeft : Int),
      isPathClear positions startPos { top := newTop, left := newLeft }
          currentPos.width currentPos.height draggingId = false →
      handleDragMove positions draggingId startPos currentPos newTop newLeft = positions) := by
  refine ⟨isPathClear_axis_iff, ?_, ?_⟩
  · intro positions startPos width height pieceId kx ky hax hend hex
    rcases hex with ⟨j, hj1, hjlt, hcol⟩
    cases hPC : isPathClear positions startPos
        { top := startPos.top + GRID_SIZE * ky, left := startPos.left + GRID_SIZE * kx }
        width height pieceId
    · rfl
    · exfalso
      have := (isPathClear_axis_iff positions startPos width height pieceId kx ky hax).1
        hPC j hj1 (le_of_lt hjlt)
      rw [this] at hcol
      exact Bool.false_ne_true hcol
  · intro positions draggingId startPos currentPos newTop newLeft h
    unfold handleDragMove
    simp [h]

theorem validate_relocation_path_blocking_witness :
    (isPathClear [(9, { top := 350, left := 178, width := 80, height := 80 })]
        { top := 350, left := 92, width := 80, height := 80 }
        { top := (350 : Int) + GRID_SIZE * 0, left := (92 : Int) + GRID_SIZE * 2 }
        80 80 7 = true ↔
      ∀ j : Nat, 1 ≤ j → (j : Int) ≤ |(2 : Int)| + |(0 : Int)| →
        checkCollisions [(9, { top := 350, left := 178, width := 80, height := 80 })] 7
          { top := (350 : Int) + GRID_SIZE * (0 : Int).sign * (j : Int),
            left := (92 : Int) + GRID_SIZE * (2 : Int).sign * (j : Int) } 80 80 = false) ∧
    isPathClear [(9, { top := 350, left := 178, width := 80, height := 80 })]
        { top := 350, left := 92, width := 80, height := 80 }
        { top := (350 : Int) + GRID_SIZE * 0, left := (92 : Int) + GRID_SIZE * 2 }
        80 80 7 = false ∧
    handleDragMove [(9, { top := 350, left := 178, width := 80, height := 80 })] 7
        { top := 350, left := 92, width := 80, height := 80 }
        { top := 350, left := 92, width := 80, height := 80 } 350 264 =
      [(9, { top := 350, left := 178, width := 80, height := 80 })] := by
  refine ⟨?_, ?_, ?_⟩
  · exact validate_relocation_path_blocking.1
      [(9, { top := 350, left := 178, width := 80, height := 80 })]
      { top := 350, left := 92, width := 80, height := 80 } 80 80 7 2 0 (Or.inr rfl)
  · exact validate_relocation_path_blocking.2.1
      [(9, { top := 350, left := 178, width := 80, height := 80 })]
      { top := 350, left := 92, width := 80, height := 80 } 80 80 7 2 0 (Or.inr rfl)
      (by decide) ⟨1, by decide, by decide, by decide⟩
  · exact validate_relocation_path_blocking.2.2
      [(9, { top := 350, left := 178, width := 80, height := 80 })] 7
      { top := 350, left := 92, width := 80, height := 80 }
      { top := 350, left := 92, width := 80, height := 80 } 350 264 (by decide)


lemma sortQueue_perm (q : List PriorityQueueItem) : (sortQueue q).Perm q :=
  List.perm_insertionSort _ q

lemma queueKeys_sortQueue_mem {q : List PriorityQueueItem} {k : String}
    (h : k ∈ queueKeys (sortQueue q)) : k ∈ queueKeys q :=
  ((sortQueue_perm q).map (fun it => serializeState it.state)).mem_iff.1 h

lemma expandMovesT_spec (current : PriorityQueueItem) :
    ∀ (ms : List Move) (queue : List PriorityQueueItem) (visited : List String),
      queueKeys (expandMovesT current ms queue visited).1 =
        queueKeys queue ++ (expandMovesT current ms queue visited).2.2 ∧
      (∀ k, k ∈ (expandMovesT current ms queue visited).2.1 ↔
        k ∈ visited ∨ k ∈ (expandMovesT current ms queue visited).2.2) ∧
      (expandMovesT current ms queue visited).2.2.Nodup ∧
      (∀ k ∈ (expandMovesT current ms queue visited).2.2, k ∉ visited) := by
  intro ms
  induction ms with
  | nil => intro queue visited; simp [expandMovesT]
  | cons m rest ih =>
    intro queue visited
    simp only [expandMovesT]
    by_cases hc : visited.contains (serializeState (applyMove current.state m)) = true
    · simp only [hc, if_true]
      exact ih queue visited
    · rw [Bool.not_eq_true] at hc
      simp only [hc, Bool.false_eq_true, if_false]
      set key := serializeState (applyMove current.state m) with hkey
      set item : PriorityQueueItem :=
        { state := applyMove current.state m,
          moves := current.moves ++ [m],
          priority := ((current.moves ++ [m]).length : Int) +
            calculateHeuristic (applyMove current.state m) } with hitem
      obtain ⟨iha, ihb, ihc, ihd⟩ := ih (queue ++ [item]) (key :: visited)
      have hkv : key ∉ visited := by
        have hc2 := hc
        simp at hc2
        exact hc2
      refine ⟨?_, ?_, ?_, ?_⟩
      · rw [iha]
        simp [queueKeys, hitem]
      · intro k
        rw [ihb k]
        simp only [List.mem_cons]
        tauto
      · refine List.Pairwise.cons ?_ ihc
        intro k hk hkk
        exact (ihd k hk) (hkk ▸ List.mem_cons_self key visited)
      · intro k hk
        rcases List.mem_cons.1 hk with rfl | hk2
        · exact hkv
        · intro hv
          exact ihd k hk2 (List.mem_cons_of_mem key hv)

lemma expandMovesT_agrees (current : PriorityQueueItem) :
    ∀ (ms : List Move) (queue : List PriorityQueueItem) (visited : List String),
      (expandMoves current ms queue visited).1 = (expandMovesT current ms queue visited).1 ∧
      (expandMoves current ms queue visited).2 = (expandMovesT current ms queue visited).2.1 := by
  intro ms
  induction ms with
  | nil => intro queue visited; simp [expandMoves, expandMovesT]
  | cons m rest ih =>
    intro queue visited
    simp only [expandMoves, expandMovesT]
    by_cases hc : visited.contains (serializeState (applyMove current.state m)) = true
    · simp only [hc, if_true]
      exact ih queue visited
    · rw [Bool.not_eq_true] at hc
      simp only [hc, Bool.false_eq_true, if_false]
      exact ih _ _

lemma solveLoopT_spec : ∀ (fuel : Nat) (q : List PriorityQueueItem) (v : List String) (e : Nat),
    (∀ k ∈ queueKeys q, k ∈ v) → e ≤ maxStates →
    ((solveLoopT fuel q v e).inserted.Nodup ∧
     (∀ k ∈ (solveLoopT fuel q v e).inserted, k ∉ v) ∧
     (solveLoopT fuel q v e).explored ≤ maxStates ∧
     (solveLoopT fuel q v e).result = solveLoop fuel q v e) := by
  intro fuel
  induction fuel with
  | zero =>
    intro q v e hqv he
    exact ⟨by simp [solveLoopT], by simp [solveLoopT], by simpa [solveLoopT] using he,
      by simp [solveLoopT, solveLoop]⟩
  | succ n ih =>
    intro q v e hqv he
    rw [solveLoopT, solveLoop]
    by_cases hguard : e < maxStates
    · rw [if_pos hguard, if_pos hguard]
      cases hsort : sortQueue q with
      | nil =>
        exact ⟨by simp, by simp, by simpa using he, rfl⟩
      | cons current rest =>
        dsimp only
        cases hl : current.state.positions.lookup 2 with
        | none =>
          exact ⟨by simp, by simp, by simp; omega, rfl⟩
        | some pandaPos =>
          dsimp only
          by_cases hgoal : (pandaPos.row == 4 && pandaPos.col == 2) = true
          · rw [if_pos hgoal, if_pos hgoal]
            exact ⟨by simp, by simp, by simp; omega, rfl⟩
          · rw [if_neg hgoal, if_neg hgoal]
            obtain ⟨ea, eb, ec, ed⟩ :=
              expandMovesT_spec current (getPossibleMoves current.state) rest v
            have hqv2 : ∀ k ∈ queueKeys
                (expandMovesT current (getPossibleMoves current.state) rest v).1,
                k ∈ (expandMovesT current (getPossibleMoves current.state) rest v).2.1 := by
              intro k hk
              rw [ea] at hk
              rcases List.mem_append.1 hk with hk2 | hk2
              · refine (eb k).2 (Or.inl ?_)
                refine hqv k ?_
                refine queueKeys_sortQueue_mem ?_
                rw [hsort]
                simp only [queueKeys, List.map_cons]
                exact List.mem_cons_of_mem _ hk2
              · exact (eb k).2 (Or.inr hk2)
            obtain ⟨ra, rb, rc, rd⟩ := ih
              (expandMovesT current (getPossibleMoves current.state) rest v).1
              (expandMovesT current (getPossibleMoves current.state) rest v).2.1
              (e + 1) hqv2 (by omega)
            have hagree := expandMovesT_agrees current (getPossibleMoves current.state) rest v
            refine ⟨?_, ?_, ?_, ?_⟩
            · simp only
              rw [List.nodup_append]
              refine ⟨ec, ra, ?_⟩
              intro k hk1 hk2
              have := rb k hk2
              exact this ((eb k).2 (Or.inr hk1))
            · simp only
              intro k hk
              rcases List.mem_append.1 hk with hk2 | hk2
              · exact ed k hk2
              · intro hv
                exact rb k hk2 ((eb k).2 (Or.inl hv))
            · simpa only using rc
            · simp only
              rw [rd, ← hagree.1, ← hagree.2]
    · rw [if_neg hguard, if_neg hguard]
      exact ⟨by simp, by simp, by simpa using he, rfl⟩

/-- C7: during a solver run every generated successor is marked visited at the
moment it is enqueued, so no two queue insertions ever carry states with equal
canonical keys, the initial enqueue included; and the loop performs at most
maxStates dequeue iterations. The instrumented loop agrees with the solver
loop on its returned value. -/
theorem solver_no_duplicate_insertions :
    ∀ (fuel : Nat) (q : List PriorityQueueItem) (v : List String) (e : Nat),
      (∀ k ∈ queueKeys q, k ∈ v) → (queueKeys q).Nodup → e ≤ maxStates →
      ((queueKeys q ++ (solveLoopT fuel q v e).inserted).Nodup ∧
       (∀ k ∈ (solveLoopT fuel q v e).inserted, k ∉ v) ∧
       (solveLoopT fuel q v e).explored ≤ maxStates ∧
       (solveLoopT fuel q v e).result = solveLoop fuel q v e) := by
  intro fuel q v e hqv hnd he
  obtain ⟨ha, hb, hc, hd⟩ := solveLoopT_spec fuel q v e hqv he
  refine ⟨?_, hb, hc, hd⟩
  rw [List.nodup_append]
  refine ⟨hnd, ha, ?_⟩
  intro k hk1 hk2
  exact hb k hk2 (hqv k hk1)

theorem solver_no_duplicate_insertions_witness :
    ((queueKeys [{ state := initialState, moves := [],
                   priority := calculateHeuristic initialState }] ++
      (solveLoopT maxStates
        [{ state := initialState, moves := [], priority := calculateHeuristic initialState }]
        [serializeState initialState] 0).inserted).Nodup ∧
     (∀ k ∈ (solveLoopT maxStates
        [{ state := initialState, moves := [], priority := calculateHeuristic initialState }]
        [serializeState initialState] 0).inserted, k ∉ [serializeState initialState]) ∧
     (solveLoopT maxStates
        [{ state := initialState, moves := [], priority := calculateHeuristic initialState }]
        [serializeState initialState] 0).explored ≤ maxStates ∧
     (solveLoopT maxStates
        [{ state := initialState, moves := [], priority := calculateHeuristic initialState }]
        [serializeState initialState] 0).result = solvePuzzle) :=
  solver_no_duplicate_insertions maxStates
    [{ state := initialState, moves := [], priority := calculateHeuristic initialState }]
    [serializeState initialState] 0 (by decide) (by decide) (by decide)

lemma getLast?_cons_ne_nil {α : Type} (a : α) {l : List α} (h : l ≠ []) :
    (a :: l).getLast? = l.getLast? := by
  cases l with
  | nil => exact absurd rfl h
  | cons b t => exact List.getLast?_cons_cons

lemma dropLast_cons_ne_nil {α : Type} (a : α) {l : List α} (h : l ≠ []) :
    (a :: l).dropLast = a :: l.dropLast := by
  cases l with
  | nil => exact absurd rfl h
  | cons b t => rfl

lemma solveLoopD_result : ∀ (fuel : Nat) (q : List PriorityQueueItem) (v : List String) (e : Nat),
    (solveLoopD fuel q v e).1 = solveLoop fuel q v e := by
  intro fuel
  induction fuel with
  | zero => intro q v e; rfl
  | succ n ih =>
    intro q v e
    rw [solveLoopD, solveLoop]
    by_cases hguard : e < maxStates
    · rw [if_pos hguard, if_pos hguard]
      cases hsort : sortQueue q with
      | nil => rfl
      | cons current rest =>
        dsimp only
        cases hl : current.state.positions.lookup 2 with
        | none => rfl
        | some pandaPos =>
          dsimp only
          by_cases hgoal : (pandaPos.row == 4 && pandaPos.col == 2) = true
          · rw [if_pos hgoal, if_pos hgoal]
          · rw [if_neg hgoal, if_neg hgoal]
            exact ih _ _ _
    · rw [if_neg hguard, if_neg hguard]

lemma solveLoopD_spec : ∀ (fuel : Nat) (q : List PriorityQueueItem) (v : List String) (e : Nat),
    (∀ ms : List Move, (solveLoopD fuel q v e).1 = some ms →
      ∃ it : PriorityQueueItem, (solveLoopD fuel q v e).2.getLast? = some it ∧
        goalTestB it.state = true ∧ ms = it.moves ∧
        ∀ x ∈ (solveLoopD fuel q v e).2.dropLast, goalTestB x.state = false) ∧
    ((solveLoopD fuel q v e).1 = none →
      ∀ x ∈ (solveLoopD fuel q v e).2, goalTestB x.state = false) := by
  intro fuel
  induction fuel with
  | zero =>
    intro q v e
    exact ⟨fun ms h => by simp [solveLoopD] at h, fun _ x hx => by simp [solveLoopD] at hx⟩
  | succ n ih =>
    intro q v e
    rw [solveLoopD]
    by_cases hguard : e < maxStates
    · rw [if_pos hguard]
      cases hsort : sortQueue q with
      | nil =>
        exact ⟨fun ms h => by simp at h, fun _ x hx => by simp at hx⟩
      | cons current rest =>
        dsimp only
        cases hl : current.state.positions.lookup 2 with
        | none =>
          refine ⟨fun ms h => by simp at h, fun _ x hx => ?_⟩
          have hx2 : x = current := by simpa using hx
          subst hx2
          unfold goalTestB
          rw [hl]
        | some pandaPos =>
          dsimp only
          by_cases hgoal : (pandaPos.row == 4 && pandaPos.col == 2) = true
          · rw [if_pos hgoal]
            refine ⟨fun ms h => ?_, fun h => by simp at h⟩
            have hms : current.moves = ms := Option.some.inj (by simpa using h)
            refine ⟨current, by simp, ?_, hms.symm, by simp⟩
            unfold goalTestB
            rw [hl]
            exact hgoal
          · rw [if_neg hgoal]
            dsimp only
            obtain ⟨ihA, ihB⟩ := ih
              (expandMoves current (getPossibleMoves current.state) rest v).1
              (expandMoves current (getPossibleMoves current.state) rest v).2 (e + 1)
            have hcur : goalTestB current.state = false := by
              rw [Bool.not_eq_true] at hgoal
              unfold goalTestB
              rw [hl]
              exact hgoal
            constructor
            · intro ms h
              have h1 : (solveLoopD n
                  (expandMoves current (getPossibleMoves current.state) rest v).1
                  (expandMoves current (getPossibleMoves current.state) rest v).2 (e + 1)).1 =
                  some ms := by simpa using h
              obtain ⟨it, hlast, hg, hm, hpre⟩ := ihA ms h1
              have hne : (solveLoopD n
                  (expandMoves current (getPossibleMoves current.state) rest v).1
                  (expandMoves current (getPossibleMoves current.state) rest v).2 (e + 1)).2 ≠
                  [] := by
                intro hnil
                rw [hnil] at hlast
                simp at hlast
              refine ⟨it, ?_, hg, hm, ?_⟩
              · rw [getLast?_cons_ne_nil current hne]
                exact hlast
              · intro x hx
                rw [dropLast_cons_ne_nil current hne] at hx
                rcases List.mem_cons.1 hx with rfl | hx2
                · exact hcur
                · exact hpre x hx2
            · intro h x hx
              have h1 : (solveLoopD n
                  (expandMoves current (getPossibleMoves current.state) rest v).1
                  (expandMoves current (getPossibleMoves current.state) rest v).2 (e + 1)).1 =
                  none := by simpa using h
              rcases List.mem_cons.1 hx with rfl | hx2
              · exact hcur
              · exact ihB h1 x hx2
    · rw [if_neg hguard]
      exact ⟨fun ms h => by simp at h, fun _ x hx => by simp at hx⟩

/-- C8: the solver succeeds exactly when a dequeued node passes the goal
test: the dequeue-trace loop solveLoopD runs the same loop as solveLoop
(returning its very value) while recording the dequeued nodes, and a some
result is the move list of the last dequeued node, which passes the goal test
while every earlier dequeued node fails it; a none result means no dequeued
node ever passed it, and both failure causes, the queue emptying and the
explored-state ceiling being reached, return that same ordinary value none,
with no exception path. -/
theorem solver_result_characterization :
    (∀ (fuel : Nat) (q : List PriorityQueueItem) (v : List String) (e : Nat),
      (solveLoopD fuel q v e).1 = solveLoop fuel q v e) ∧
    (∀ (fuel : Nat) (q : List PriorityQueueItem) (v : List String) (e : Nat) (ms : List Move),
      solveLoop fuel q v e = some ms →
      ∃ it : PriorityQueueItem, (solveLoopD fuel q v e).2.getLast? = some it ∧
        goalTestB it.state = true ∧ ms = it.moves ∧
        ∀ x ∈ (solveLoopD fuel q v e).2.dropLast, goalTestB x.state = false) ∧
    (∀ (fuel : Nat) (q : List PriorityQueueItem) (v : List String) (e : Nat),
      solveLoop fuel q v e = none →
      ∀ x ∈ (solveLoopD fuel q v e).2, goalTestB x.state = false) ∧
    (∀ (fuel : Nat) (v : List String) (e : Nat), solveLoop fuel [] v e = none) ∧
    (∀ (fuel : Nat) (q : List PriorityQueueItem) (v : List String) (e : Nat),
      maxStates ≤ e → solveLoop fuel q v e = none) := by
  refine ⟨solveLoopD_result, ?_, ?_, ?_, ?_⟩
  · intro fuel q v e ms h
    exact (solveLoopD_spec fuel q v e).1 ms ((solveLoopD_result fuel q v e).trans h)
  · intro fuel q v e h
    exact (solveLoopD_spec fuel q v e).2 ((solveLoopD_result fuel q v e).trans h)
  · intro fuel v e
    cases fuel with
    | zero => rfl
    | succ n =>
      rw [solveLoop]
      by_cases hguard : e < maxStates
      · rw [if_pos hguard]
        rfl
      · rw [if_neg hguard]
  · intro fuel q v e he
    cases fuel with
    | zero => rfl
    | succ n =>
      rw [solveLoop]
      rw [if_neg (by omega)]

theorem solver_result_characterization_witness :
    (solveLoopD 1 [] [] 0).1 = solveLoop 1 [] [] 0 ∧
    (∃ it : PriorityQueueItem,
      (solveLoopD 1 [{ state := { positions := [(2, { row := 4, col := 2 })] },
                       moves := [], priority := 0 }] [] 0).2.getLast? = some it ∧
        goalTestB it.state = true ∧ ([] : List Move) = it.moves ∧
        ∀ x ∈ (solveLoopD 1 [{ state := { positions := [(2, { row := 4, col := 2 })] },
                               moves := [], priority := 0 }] [] 0).2.dropLast,
          goalTestB x.state = false) ∧
    (∀ x ∈ (solveLoopD 1 [] [] 0).2, goalTestB x.state = false) ∧
    solveLoop 1 [] [] 0 = none ∧
    solveLoop 1 [{ state := initialState, moves := [], priority := 0 }] [] maxStates = none :=
  ⟨solver_result_characterization.1 1 [] [] 0,
   solver_result_characterization.2.1 1
    [{ state := { positions := [(2, { row := 4, col := 2 })] }, moves := [], priority := 0 }]
    [] 0 [] (by decide),
   solver_result_characterization.2.2.1 1 [] [] 0 (by decide),
   solver_result_characterization.2.2.2.1 1 [] 0,
   solver_result_characterization.2.2.2.2 1
    [{ state := initialState, moves := [], priority := 0 }] [] maxStates (by omega)⟩


lemma serialize_eq_of_perm {l1 l2 : List (Nat × Pos)} (hnd : (l1.map Prod.fst).Nodup)
    (hp : l1.Perm l2) : serializeState { positions := l1 } = serializeState { positions := l2 } := by
  have hnd2 : (l2.map Prod.fst).Nodup := ((hp.map Prod.fst).nodup_iff).1 hnd
  have hps1 := List.perm_insertionSort (fun a b : Nat × Pos => a.1 ≤ b.1) l1
  have hps2 := List.perm_insertionSort (fun a b : Nat × Pos => a.1 ≤ b.1) l2
  have hs1 := List.sorted_insertionSort (fun a b : Nat × Pos => a.1 ≤ b.1) l1
  have hs2 := List.sorted_insertionSort (fun a b : Nat × Pos => a.1 ≤ b.1) l2
  have hnds1 : ((List.insertionSort (fun a b : Nat × Pos => a.1 ≤ b.1) l1).map Prod.fst).Nodup :=
    ((hps1.map Prod.fst).nodup_iff).2 hnd
  have hnds2 : ((List.insertionSort (fun a b : Nat × Pos => a.1 ≤ b.1) l2).map Prod.fst).Nodup :=
    ((hps2.map Prod.fst).nodup_iff).2 hnd2
  have hlt1 : List.Sorted (fun a b : Nat × Pos => a.1 < b.1)
      (List.insertionSort (fun a b : Nat × Pos => a.1 ≤ b.1) l1) := by
    have hne := List.pairwise_map.1 hnds1
    exact (hs1.and hne).imp (fun h => Nat.lt_of_le_of_ne h.1 h.2)
  have hlt2 : List.Sorted (fun a b : Nat × Pos => a.1 < b.1)
      (List.insertionSort (fun a b : Nat × Pos => a.1 ≤ b.1) l2) := by
    have hne := List.pairwise_map.1 hnds2
    exact (hs2.and hne).imp (fun h => Nat.lt_of_le_of_ne h.1 h.2)
  haveI : IsAntisymm (Nat × Pos) (fun a b => a.1 < b.1) :=
    ⟨fun a b h1 h2 => absurd h2 (Nat.lt_asymm h1)⟩
  have heq : List.insertionSort (fun a b : Nat × Pos => a.1 ≤ b.1) l1 =
      List.insertionSort (fun a b : Nat × Pos => a.1 ≤ b.1) l2 :=
    List.eq_of_perm_of_sorted ((hps1.trans hp).trans hps2.symm) hlt1 hlt2
  unfold serializeState
  rw [heq]

lemma sorted_keys_eq {l : List (Nat × Pos)} (hk : (l.map Prod.fst).Perm puzzleIds) :
    (List.insertionSort (fun a b : Nat × Pos => a.1 ≤ b.1) l).map Prod.fst = puzzleIds := by
  have hps := List.perm_insertionSort (fun a b : Nat × Pos => a.1 ≤ b.1) l
  have hs := List.sorted_insertionSort (fun a b : Nat × Pos => a.1 ≤ b.1) l
  have hsk : List.Sorted (fun a b : Nat => a ≤ b)
      ((List.insertionSort (fun a b : Nat × Pos => a.1 ≤ b.1) l).map Prod.fst) :=
    List.pairwise_map.2 hs
  have hpk : ((List.insertionSort (fun a b : Nat × Pos => a.1 ≤ b.1) l).map Prod.fst).Perm
      puzzleIds := (hps.map Prod.fst).trans hk
  haveI : IsAntisymm Nat (fun a b : Nat => a ≤ b) := ⟨fun _ _ h1 h2 => Nat.le_antisymm h1 h2⟩
  refine List.eq_of_perm_of_sorted hpk hsk ?_
  show List.Sorted (fun a b : Nat => a ≤ b) puzzleIds
  decide

lemma map_fst_eq_cons {L : List (Nat × Pos)} {a : Nat} {rest : List Nat}
    (h : L.map Prod.fst = a :: rest) :
    ∃ v L2, L = (a, v) :: L2 ∧ L2.map Prod.fst = rest := by
  cases L with
  | nil => simp at h
  | cons e L2 =>
    simp only [List.map_cons, List.cons.injEq] at h
    refine ⟨e.2, L2, ?_, h.2⟩
    cases e
    simp_all

lemma nat_repr_digit : ∀ n : Nat, n < 10 → (Nat.repr n).data = [Nat.digitChar n] := by decide

lemma digitChar_inj_lt10 : ∀ m : Nat, m < 10 → ∀ n : Nat, n < 10 →
    Nat.digitChar m = Nat.digitChar n → m = n := by decide

lemma int_toString_digit {i : Int} (h0 : 0 ≤ i) (h9 : i ≤ 9) :
    (toString i).data = [Nat.digitChar i.toNat] := by
  obtain ⟨n, rfl⟩ := Int.eq_ofNat_of_zero_le h0
  have hn : n < 10 := by omega
  have hts : toString ((n : Nat) : Int) = Nat.repr n := rfl
  rw [hts, show ((n : Nat) : Int).toNat = n from rfl]
  exact nat_repr_digit n hn

lemma int_digit_inj {i j : Int} (hi0 : 0 ≤ i) (hi9 : i ≤ 9) (hj0 : 0 ≤ j) (hj9 : j ≤ 9)
    (h : Nat.digitChar i.toNat = Nat.digitChar j.toNat) : i = j := by
  have := digitChar_inj_lt10 i.toNat (by omega) j.toNat (by omega) h
  omega

lemma serialize_data_of_sorted {l : List (Nat × Pos)} {p1 p2 p3 p4 p5 p6 p7 p8 p9 p10 : Pos}
    (hsort : List.insertionSort (fun a b : Nat × Pos => a.1 ≤ b.1) l =
      [(1, p1), (2, p2), (3, p3), (4, p4), (5, p5), (6, p6), (7, p7), (8, p8), (9, p9), (10, p10)])
    (hb : ∀ p ∈ [p1, p2, p3, p4, p5, p6, p7, p8, p9, p10],
      0 ≤ p.row ∧ p.row ≤ 9 ∧ 0 ≤ p.col ∧ p.col ≤ 9) :
    (serializeState { positions := l }).data =
      ['1', ':', Nat.digitChar p1.row.toNat, ',', Nat.digitChar p1.col.toNat, '|',
       '2', ':', Nat.digitChar p2.row.toNat, ',', Nat.digitChar p2.col.toNat, '|',
       '3', ':', Nat.digitChar p3.row.toNat, ',', Nat.digitChar p3.col.toNat, '|',
       '4', ':', Nat.digitChar p4.row.toNat, ',', Nat.digitChar p4.col.toNat, '|',
       '5', ':', Nat.digitChar p5.row.toNat, ',', Nat.digitChar p5.col.toNat, '|',
       '6', ':', Nat.digitChar p6.row.toNat, ',', Nat.digitChar p6.col.toNat, '|',
       '7', ':', Nat.digitChar p7.row.toNat, ',', Nat.digitChar p7.col.toNat, '|',
       '8', ':', Nat.digitChar p8.row.toNat, ',', Nat.digitChar p8.col.toNat, '|',
       '9', ':', Nat.digitChar p9.row.toNat, ',', Nat.digitChar p9.col.toNat, '|',
       '1', '0', ':', Nat.digitChar p10.row.toNat, ',', Nat.digitChar p10.col.toNat] := by
  obtain ⟨h1r0, h1r9, h1c0, h1c9⟩ := hb p1 (by simp)
  obtain ⟨h2r0, h2r9, h2c0, h2c9⟩ := hb p2 (by simp)
  obtain ⟨h3r0, h3r9, h3c0, h3c9⟩ := hb p3 (by simp)
  obtain ⟨h4r0, h4r9, h4c0, h4c9⟩ := hb p4 (by simp)
  obtain ⟨h5r0, h5r9, h5c0, h5c9⟩ := hb p5 (by simp)
  obtain ⟨h6r0, h6r9, h6c0, h6c9⟩ := hb p6 (by simp)
  obtain ⟨h7r0, h7r9, h7c0, h7c9⟩ := hb p7 (by simp)
  obtain ⟨h8r0, h8r9, h8c0, h8c9⟩ := hb p8 (by simp)
  obtain ⟨h9r0, h9r9, h9c0, h9c9⟩ := hb p9 (by simp)
  obtain ⟨h10r0, h10r9, h10c0, h10c9⟩ := hb p10 (by simp)
  unfold serializeState
  rw [hsort]
  simp only [List.map_cons, List.map_nil]
  simp only [String.intercalate, String.intercalate.go]
  simp only [String.data_append,
    int_toString_digit h1r0 h1r9, int_toString_digit h1c0 h1c9,
    int_toString_digit h2r0 h2r9, int_toString_digit h2c0 h2c9,
    int_toString_digit h3r0 h3r9, int_toString_digit h3c0 h3c9,
    int_toString_digit h4r0 h4r9, int_toString_digit h4c0 h4c9,
    int_toString_digit h5r0 h5r9, int_toString_digit h5c0 h5c9,
    int_toString_digit h6r0 h6r9, int_toString_digit h6c0 h6c9,
    int_toString_digit h7r0 h7r9, int_toString_digit h7c0 h7c9,
    int_toString_digit h8r0 h8r9, int_toString_digit h8c0 h8c9,
    int_toString_digit h9r0 h9r9, int_toString_digit h9c0 h9c9,
    int_toString_digit h10r0 h10r9, int_toString_digit h10c0 h10c9]
  simp [show (toString (1 : Nat)).data = ['1'] from by decide,
    show (toString (2 : Nat)).data = ['2'] from by decide,
    show (toString (3 : Nat)).data = ['3'] from by decide,
    show (toString (4 : Nat)).data = ['4'] from by decide,
    show (toString (5 : Nat)).data = ['5'] from by decide,
    show (toString (6 : Nat)).data = ['6'] from by decide,
    show (toString (7 : Nat)).data = ['7'] from by decide,
    show (toString (8 : Nat)).data = ['8'] from by decide,
    show (toString (9 : Nat)).data = ['9'] from by decide,
    show (toString (10 : Nat)).data = ['1', '0'] from by decide,
    show (":" : String).data = [':'] from by decide,
    show ("," : String).data = [','] from by decide,
    show ("|" : String).data = ['|'] from by decide]

/-- C5: the canonical key is order independent and injective on board states:
for states over the fixed ten piece ids with board-cell placements, two
serializations are equal exactly when the states contain the same
(id, placement) entries, regardless of the internal order of the map. -/
theorem serializeState_canonical :
    ∀ (s1 s2 : GameState),
      (s1.positions.map Prod.fst).Perm puzzleIds →
      (s2.positions.map Prod.fst).Perm puzzleIds →
      (∀ e ∈ s1.positions, 0 ≤ e.2.row ∧ e.2.row ≤ 9 ∧ 0 ≤ e.2.col ∧ e.2.col ≤ 9) →
      (∀ e ∈ s2.positions, 0 ≤ e.2.row ∧ e.2.row ≤ 9 ∧ 0 ≤ e.2.col ∧ e.2.col ≤ 9) →
      (serializeState s1 = serializeState s2 ↔ ∀ e, e ∈ s1.positions ↔ e ∈ s2.positions) := by
  intro s1 s2 hk1 hk2 hb1 hb2
  have hnd1 : (s1.positions.map Prod.fst).Nodup := hk1.nodup_iff.2 puzzleIds_nodup
  have hnd2 : (s2.positions.map Prod.fst).Nodup := hk2.nodup_iff.2 puzzleIds_nodup
  constructor
  · intro hser
    have hkeys1 := sorted_keys_eq hk1
    have hkeys2 := sorted_keys_eq hk2
    rw [show puzzleIds = [1,2,3,4,5,6,7,8,9,10] from rfl] at hkeys1 hkeys2
    obtain ⟨p1, A1, hL1, hkeys1⟩ := map_fst_eq_cons hkeys1
    obtain ⟨p2, A2, hL2, hkeys1⟩ := map_fst_eq_cons hkeys1
    obtain ⟨p3, A3, hL3, hkeys1⟩ := map_fst_eq_cons hkeys1
    obtain ⟨p4, A4, hL4, hkeys1⟩ := map_fst_eq_cons hkeys1
    obtain ⟨p5, A5, hL5, hkeys1⟩ := map_fst_eq_cons hkeys1
    obtain ⟨p6, A6, hL6, hkeys1⟩ := map_fst_eq_cons hkeys1
    obtain ⟨p7, A7, hL7, hkeys1⟩ := map_fst_eq_cons hkeys1
    obtain ⟨p8, A8, hL8, hkeys1⟩ := map_fst_eq_cons hkeys1
    obtain ⟨p9, A9, hL9, hkeys1⟩ := map_fst_eq_cons hkeys1
    obtain ⟨p10, A10, hL10, hkeys1⟩ := map_fst_eq_cons hkeys1
    have hA10 : A10 = [] := List.map_eq_nil_iff.1 hkeys1
    obtain ⟨q1, B1, hM1, hkeys2⟩ := map_fst_eq_cons hkeys2
    obtain ⟨q2, B2, hM2, hkeys2⟩ := map_fst_eq_cons hkeys2
    obtain ⟨q3, B3, hM3, hkeys2⟩ := map_fst_eq_cons hkeys2
    obtain ⟨q4, B4, hM4, hkeys2⟩ := map_fst_eq_cons hkeys2
    obtain ⟨q5, B5, hM5, hkeys2⟩ := map_fst_eq_cons hkeys2
    obtain ⟨q6, B6, hM6, hkeys2⟩ := map_fst_eq_cons hkeys2
    obtain ⟨q7, B7, hM7, hkeys2⟩ := map_fst_eq_cons hkeys2
    obtain ⟨q8, B8, hM8, hkeys2⟩ := map_fst_eq_cons hkeys2
    obtain ⟨q9, B9, hM9, hkeys2⟩ := map_fst_eq_cons hkeys2
    obtain ⟨q10, B10, hM10, hkeys2⟩ := map_fst_eq_cons hkeys2
    have hB10 : B10 = [] := List.map_eq_nil_iff.1 hkeys2
    have hsort1 : List.insertionSort (fun a b : Nat × Pos => a.1 ≤ b.1) s1.positions =
        [(1, p1), (2, p2), (3, p3), (4, p4), (5, p5), (6, p6), (7, p7), (8, p8), (9, p9), (10, p10)] := by
      rw [hL1, hL2, hL3, hL4, hL5, hL6, hL7, hL8, hL9, hL10, hA10]
    have hsort2 : List.insertionSort (fun a b : Nat × Pos => a.1 ≤ b.1) s2.positions =
        [(1, q1), (2, q2), (3, q3), (4, q4), (5, q5), (6, q6), (7, q7), (8, q8), (9, q9), (10, q10)] := by
      rw [hM1, hM2, hM3, hM4, hM5, hM6, hM7, hM8, hM9, hM10, hB10]
    have hbp : ∀ p ∈ [p1, p2, p3, p4, p5, p6, p7, p8, p9, p10],
        0 ≤ p.row ∧ p.row ≤ 9 ∧ 0 ≤ p.col ∧ p.col ≤ 9 := by
      intro p hp
      simp only [List.mem_cons, List.not_mem_nil, or_false] at hp
      rcases hp with rfl|rfl|rfl|rfl|rfl|rfl|rfl|rfl|rfl|rfl
      · exact hb1 (1, p) ((List.perm_insertionSort _ s1.positions).subset (by rw [hsort1]; simp))
      · exact hb1 (2, p) ((List.perm_insertionSort _ s1.positions).subset (by rw [hsort1]; simp))
      · exact hb1 (3, p) ((List.perm_insertionSort _ s1.positions).subset (by rw [hsort1]; simp))
      · exact hb1 (4, p) ((List.perm_insertionSort _ s1.positions).subset (by rw [hsort1]; simp))
      · exact hb1 (5, p) ((List.perm_insertionSort _ s1.positions).subset (by rw [hsort1]; simp))
      · exact hb1 (6, p) ((List.perm_insertionSort _ s1.positions).subset (by rw [hsort1]; simp))
      · exact hb1 (7, p) ((List.perm_insertionSort _ s1.positions).subset (by rw [hsort1]; simp))
      · exact hb1 (8, p) ((List.perm_insertionSort _ s1.positions).subset (by rw [hsort1]; simp))
      · exact hb1 (9, p) ((List.perm_insertionSort _ s1.positions).subset (by rw [hsort1]; simp))
      · exact hb1 (10, p) ((List.perm_insertionSort _ s1.positions).subset (by rw [hsort1]; simp))
    have hbq : ∀ p ∈ [q1, q2, q3, q4, q5, q6, q7, q8, q9, q10],
        0 ≤ p.row ∧ p.row ≤ 9 ∧ 0 ≤ p.col ∧ p.col ≤ 9 := by
      intro p hp
      simp only [List.mem_cons, List.not_mem_nil, or_false] at hp
      rcases hp with rfl|rfl|rfl|rfl|rfl|rfl|rfl|rfl|rfl|rfl
      · exact hb2 (1, p) ((List.perm_insertionSort _ s2.positions).subset (by rw [hsort2]; simp))
      · exact hb2 (2, p) ((List.perm_insertionSort _ s2.positions).subset (by rw [hsort2]; simp))
      · exact hb2 (3, p) ((List.perm_insertionSort _ s2.positions).subset (by rw [hsort2]; simp))
      · exact hb2 (4, p) ((List.perm_insertionSort _ s2.positions).subset (by rw [hsort2]; simp))
      · exact hb2 (5, p) ((List.perm_insertionSort _ s2.positions).subset (by rw [hsort2]; simp))
      · exact hb2 (6, p) ((List.perm_insertionSort _ s2.positions).subset (by rw [hsort2]; simp))
      · exact hb2 (7, p) ((List.perm_insertionSort _ s2.positions).subset (by rw [hsort2]; simp))
      · exact hb2 (8, p) ((List.perm_insertionSort _ s2.positions).subset (by rw [hsort2]; simp))
      · exact hb2 (9, p) ((List.perm_insertionSort _ s2.positions).subset (by rw [hsort2]; simp))
      · exact hb2 (10, p) ((List.perm_insertionSort _ s2.positions).subset (by rw [hsort2]; simp))
    have hdata := congrArg String.data hser
    rw [serialize_data_of_sorted hsort1 hbp, serialize_data_of_sorted hsort2 hbq] at hdata
    simp only [List.cons.injEq, and_true] at hdata
    obtain ⟨-, -, e1r, -, e1c, -, -, -, e2r, -, e2c, -, -, -, e3r, -, e3c, -, -, -, e4r, -,
      e4c, -, -, -, e5r, -, e5c, -, -, -, e6r, -, e6c, -, -, -, e7r, -, e7c, -, -, -, e8r, -,
      e8c, -, -, -, e9r, -, e9c, -, -, -, -, e10r, -, e10c⟩ := hdata
    have hp1 : p1 = q1 := Pos.ext
      (int_digit_inj (hbp p1 (by simp)).1 (hbp p1 (by simp)).2.1
        (hbq q1 (by simp)).1 (hbq q1 (by simp)).2.1 e1r)
      (int_digit_inj (hbp p1 (by simp)).2.2.1 (hbp p1 (by simp)).2.2.2
        (hbq q1 (by simp)).2.2.1 (hbq q1 (by simp)).2.2.2 e1c)
    have hp2 : p2 = q2 := Pos.ext
      (int_digit_inj (hbp p2 (by simp)).1 (hbp p2 (by simp)).2.1
        (hbq q2 (by simp)).1 (hbq q2 (by simp)).2.1 e2r)
      (int_digit_inj (hbp p2 (by simp)).2.2.1 (hbp p2 (by simp)).2.2.2
        (hbq q2 (by simp)).2.2.1 (hbq q2 (by simp)).2.2.2 e2c)
    have hp3 : p3 = q3 := Pos.ext
      (int_digit_inj (hbp p3 (by simp)).1 (hbp p3 (by simp)).2.1
        (hbq q3 (by simp)).1 (hbq q3 (by simp)).2.1 e3r)
      (int_digit_inj (hbp p3 (by simp)).2.2.1 (hbp p3 (by simp)).2.2.2
        (hbq q3 (by simp)).2.2.1 (hbq q3 (by simp)).2.2.2 e3c)
    have hp4 : p4 = q4 := Pos.ext
      (int_digit_inj (hbp p4 (by simp)).1 (hbp p4 (by simp)).2.1
        (hbq q4 (by simp)).1 (hbq q4 (by simp)).2.1 e4r)
      (int_digit_inj (hbp p4 (by simp)).2.2.1 (hbp p4 (by simp)).2.2.2
        (hbq q4 (by simp)).2.2.1 (hbq q4 (by simp)).2.2.2 e4c)
    have hp5 : p5 = q5 := Pos.ext
      (int_digit_inj (hbp p5 (by simp)).1 (hbp p5 (by simp)).2.1
        (hbq q5 (by simp)).1 (hbq q5 (by simp)).2.1 e5r)
      (int_digit_inj (hbp p5 (by simp)).2.2.1 (hbp p5 (by simp)).2.2.2
        (hbq q5 (by simp)).2.2.1 (hbq q5 (by simp)).2.2.2 e5c)
    have hp6 : p6 = q6 := Pos.ext
      (int_digit_inj (hbp p6 (by simp)).1 (hbp p6 (by simp)).2.1
        (hbq q6 (by simp)).1 (hbq q6 (by simp)).2.1 e6r)
      (int_digit_inj (hbp p6 (by simp)).2.2.1 (hbp p6 (by simp)).2.2.2
        (hbq q6 (by simp)).2.2.1 (hbq q6 (by simp)).2.2.2 e6c)
    have hp7 : p7 = q7 := Pos.ext
      (int_digit_inj (hbp p7 (by simp)).1 (hbp p7 (by simp)).2.1
        (hbq q7 (by simp)).1 (hbq q7 (by simp)).2.1 e7r)
      (int_digit_inj (hbp p7 (by simp)).2.2.1 (hbp p7 (by simp)).2.2.2
        (hbq q7 (by simp)).2.2.1 (hbq q7 (by simp)).2.2.2 e7c)
    have hp8 : p8 = q8 := Pos.ext
      (int_digit_inj (hbp p8 (by simp)).1 (hbp p8 (by simp)).2.1
        (hbq q8 (by simp)).1 (hbq q8 (by simp)).2.1 e8r)
      (int_digit_inj (hbp p8 (by simp)).2.2.1 (hbp p8 (by simp)).2.2.2
        (hbq q8 (by simp)).2.2.1 (hbq q8 (by simp)).2.2.2 e8c)
    have hp9 : p9 = q9 := Pos.ext
      (int_digit_inj (hbp p9 (by simp)).1 (hbp p9 (by simp)).2.1
        (hbq q9 (by simp)).1 (hbq q9 (by simp)).2.1 e9r)
      (int_digit_inj (hbp p9 (by simp)).2.2.1 (hbp p9 (by simp)).2.2.2
        (hbq q9 (by simp)).2.2.1 (hbq q9 (by simp)).2.2.2 e9c)
    have hp10 : p10 = q10 := Pos.ext
      (int_digit_inj (hbp p10 (by simp)).1 (hbp p10 (by simp)).2.1
        (hbq q10 (by simp)).1 (hbq q10 (by simp)).2.1 e10r)
      (int_digit_inj (hbp p10 (by simp)).2.2.1 (hbp p10 (by simp)).2.2.2
        (hbq q10 (by simp)).2.2.1 (hbq q10 (by simp)).2.2.2 e10c)
    have hperm : s1.positions.Perm s2.positions := by
      refine (List.perm_insertionSort (fun a b : Nat × Pos => a.1 ≤ b.1) s1.positions).symm.trans ?_
      rw [hsort1, hp1, hp2, hp3, hp4, hp5, hp6, hp7, hp8, hp9, hp10, ← hsort2]
      exact List.perm_insertionSort _ s2.positions
    intro e
    exact hperm.mem_iff
  · intro hmem
    have hp : s1.positions.Perm s2.positions :=
      (List.perm_ext_iff_of_nodup (hnd1.of_map) (hnd2.of_map)).2 hmem
    exact serialize_eq_of_perm hnd1 hp

theorem serializeState_canonical_witness :
    serializeState initialState =
      serializeState { positions :=
        [(2, { row := 1, col := 2 }), (1, { row := 1, col := 1 }), (3, { row := 1, col := 4 }),
         (4, { row := 3, col := 1 }), (5, { row := 3, col := 4 }), (6, { row := 3, col := 2 }),
         (7, { row := 4, col := 2 }), (8, { row := 4, col := 3 }), (9, { row := 5, col := 1 }),
         (10, { row := 5, col := 4 })] } ↔
    (∀ e, e ∈ initialState.positions ↔ e ∈
      [(2, ({ row := 1, col := 2 } : Pos)), (1, { row := 1, col := 1 }), (3, { row := 1, col := 4 }),
       (4, { row := 3, col := 1 }), (5, { row := 3, col := 4 }), (6, { row := 3, col := 2 }),
       (7, { row := 4, col := 2 }), (8, { row := 4, col := 3 }), (9, { row := 5, col := 1 }),
       (10, { row := 5, col := 4 })]) :=
  serializeState_canonical initialState
    { positions :=
      [(2, { row := 1, col := 2 }), (1, { row := 1, col := 1 }), (3, { row := 1, col := 4 }),
       (4, { row := 3, col := 1 }), (5, { row := 3, col := 4 }), (6, { row := 3, col := 2 }),
       (7, { row := 4, col := 2 }), (8, { row := 4, col := 3 }), (9, { row := 5, col := 1 }),
       (10, { row := 5, col := 4 })] }
    (by decide) (by decide) (by decide) (by decide)
